import Mathlib

/-!
Verification of the FormalGeo step-grading engine of this repository
(`src/backend/graders/formalgeo_grader.py`).  The Python source is shallowly
embedded: pure helpers become Lean functions, the mutable solver state becomes
an explicit `Condition` value threaded through the step verifier, and the
opaque external solver (the `formalgeo` pip package) is modelled through
explicit oracle functions collected in `GraderCfg`, following the adapter
contract stated by the specification (sections 4.2 and 4.3): `has` is exact
membership, `add` declines duplicates and otherwise appends with a fresh
monotonic id, and a call into the external package may raise, which is
modelled by boolean acceptance oracles.
-/

namespace FormalGeoGrader

/-- Item stored with a knowledge-base fact: either a tuple of point letters
(the parsed claim items) or an opaque algebraic equation as produced by the
external equation parser (`get_equation_from_tree`), identified by a number. -/
inductive KItem where
  | pts : List Char → KItem
  | eqn : Nat → KItem
  deriving DecidableEq, Repr

/-- One knowledge-base fact with its provenance, mirroring an entry of
FormalGeo's `problem.condition`: id, predicate, item, premise ids and the
theorem tag under which it was added. -/
structure Fact where
  id : Nat
  predicate : String
  item : KItem
  premise : List Nat
  theoremTag : String
  deriving DecidableEq, Repr

/-- Knowledge-base state (`solver.problem.condition`): the fact list, the next
fresh fact id, and the predicate vocabulary bookkeeping used by
`_try_add_predicate_to_kb` (`items_group` keys, `fix_length_predicates`,
`variable_length_predicates`). -/
structure Condition where
  facts : List Fact
  nextId : Nat
  itemsGroup : List String
  fixLengthPredicates : List String
  variableLengthPredicates : List String
  deriving DecidableEq, Repr

/-- Exact membership of a `(predicate, item)` pair in the knowledge base
(adapter operation `has`, specification section 4.2). -/
def Condition.has (c : Condition) (p : String) (it : KItem) : Bool :=
  c.facts.any (fun f => f.predicate = p ∧ f.item = it)

/-- Adapter operation `add` (specification section 4.2): returns `false`
with the existing fact's id when the pair is already present, otherwise
appends a fact carrying the given premise ids and theorem tag and assigns a
fresh monotonic id. -/
def Condition.add (c : Condition) (p : String) (it : KItem) (premise : List Nat)
    (tag : String) : Bool × Option Nat × Condition :=
  if c.has p it then
    (false, (c.facts.find? (fun f => f.predicate = p ∧ f.item = it)).map (fun f => f.id), c)
  else
    (true, some c.nextId,
      { c with facts := c.facts ++ [⟨c.nextId, p, it, premise, tag⟩],
               nextId := c.nextId + 1 })

/-- Test used by `_try_add_predicate_to_kb` before firing the angle-symmetry
rule: the item is a tuple of exactly three letters (`len(item) == 3`). -/
def KItem.isLen3 : KItem → Bool
  | .pts l => l.length = 3
  | .eqn _ => false

/-- Reversal `(item[2], item[1], item[0])` used by the angle-symmetry rule. -/
def KItem.revAngle : KItem → KItem
  | .pts [x, y, z] => .pts [z, y, x]
  | it => it

/-- Vocabulary-slot initialization prelude of `_try_add_predicate_to_kb`
(the `ensure_predicate_slot` operation of the specification): introduce an
empty predicate family when the vocabulary does not know it, registering it
among the variable-length predicates unless already classified. -/
def ensurePredicateSlot (cond : Condition) (predicate : String) : Condition :=
  if predicate ∈ cond.itemsGroup then cond
  else
    { cond with
      itemsGroup := cond.itemsGroup ++ [predicate],
      variableLengthPredicates :=
        if predicate ∈ cond.fixLengthPredicates then cond.variableLengthPredicates
        else if predicate ∈ cond.variableLengthPredicates then cond.variableLengthPredicates
        else cond.variableLengthPredicates ++ [predicate] }

/-- Transliteration of `_try_add_predicate_to_kb`: initialize an empty
vocabulary slot when the predicate is unknown, then `add` the fact as an
assumption; on a successful add of a three-letter `Angle` fact, immediately
add the reversed angle with the fresh id as premise and the
`angle_symmetry` tag.  The external `condition.add` may raise; this is
modelled by the `addOk` oracle, and a raise is caught by the Python
`except` branch, which returns `(False, None)` while keeping whatever state
mutations already happened. -/
def tryAddPredicateToKb (addOk : String → KItem → Bool) (cond : Condition)
    (predicate : String) (item : KItem) (stepId : Nat) :
    Bool × Option Nat × Condition :=
  let cond1 := ensurePredicateSlot cond predicate
  if ¬ addOk predicate item then (false, none, cond1)
  else
    let r1 := cond1.add predicate item [] ("assumption_step_" ++ toString stepId)
    let success := r1.1
    let newId := r1.2.1
    let cond2 := r1.2.2
    if success ∧ predicate = "Angle" ∧ item.isLen3 then
      if ¬ addOk "Angle" item.revAngle then (false, none, cond2)
      else
        let r2 := cond2.add "Angle" item.revAngle [newId.getD 0] "angle_symmetry"
        (success, newId, r2.2.2)
    else (success, newId, cond2)

/-- Transliteration of `check_conclusion_exists`: `false` when the predicate
is not in the vocabulary, else exact membership (the Python wrapper also
catches exceptions and returns `False`; the model is total). -/
def checkConclusionExists (cond : Condition) (p : String) (it : KItem) : Bool :=
  if p ∈ cond.itemsGroup then cond.has p it else false

/-! String helpers mirroring the Python string operations used by the CDL
parser and normalizer. -/

/-- Python `str.strip()` on a character list. -/
def stripCh (l : List Char) : List Char :=
  ((l.dropWhile Char.isWhitespace).reverse.dropWhile Char.isWhitespace).reverse

/-- Regex word character class `\w`: letters, digits or underscore (ASCII,
which is all the CDL strings use). -/
def isWordCh (c : Char) : Bool :=
  ('A' ≤ c ∧ c ≤ 'Z') ∨ ('a' ≤ c ∧ c ≤ 'z') ∨ ('0' ≤ c ∧ c ≤ '9') ∨ c = '_'

/-- Uppercase ASCII letter, the class used for point-name extraction. -/
def isUpperCh (c : Char) : Bool :=
  'A' ≤ c ∧ c ≤ 'Z'

/-- Decimal digit. -/
def isDigitCh (c : Char) : Bool :=
  '0' ≤ c ∧ c ≤ '9'

/-- Transliteration of `_split_by_comma`: split at top-level commas keeping
parenthesis depth, appending the current chunk at each separating comma and
appending the trailing chunk only when non-empty.  Python integers may go
negative on unbalanced input, hence the `Int` depth. -/
def splitByCommaGo : List Char → List Char → Int → List (List Char)
  | [], cur, _ => if cur = [] then [] else [cur.reverse]
  | ch :: rest, cur, depth =>
    if ch = '(' then splitByCommaGo rest (ch :: cur) (depth + 1)
    else if ch = ')' then splitByCommaGo rest (ch :: cur) (depth - 1)
    else if ch = ',' ∧ depth = 0 then cur.reverse :: splitByCommaGo rest [] depth
    else splitByCommaGo rest (ch :: cur) depth

/-- Top-level comma split (`_split_by_comma`). -/
def splitByComma (expr : List Char) : List (List Char) :=
  splitByCommaGo expr [] 0

/-- Transliteration of `_split_by_operator`: identical to the comma split but
with an arbitrary separating operator character. -/
def splitByOperatorGo (op : Char) : List Char → List Char → Int → List (List Char)
  | [], cur, _ => if cur = [] then [] else [cur.reverse]
  | ch :: rest, cur, depth =>
    if ch = '(' then splitByOperatorGo op rest (ch :: cur) (depth + 1)
    else if ch = ')' then splitByOperatorGo op rest (ch :: cur) (depth - 1)
    else if ch = op ∧ depth = 0 then cur.reverse :: splitByOperatorGo op rest [] depth
    else splitByOperatorGo op rest (ch :: cur) depth

/-- Top-level operator split (`_split_by_operator`). -/
def splitByOperator (expr : List Char) (op : Char) : List (List Char) :=
  splitByOperatorGo op expr [] 0

/-- Attempt to match the multiplication pattern
`(\d+)\s*\*\s*([A-Za-z_][A-Za-z0-9_]*(?:\([^)]+\))?)` at the head of the
input.  On success returns the two capture groups and the remainder after the
whole match.  The pattern's quantifier structure is deterministic (shrinking
a greedy `\d+`, `\s*` or identifier run always exposes a character that the
next pattern element rejects), so no backtracking is needed. -/
def tryMulMatch (l : List Char) : Option (List Char × List Char × List Char) :=
  let digits := l.takeWhile isDigitCh
  if digits = [] then none
  else
    let r1 := (l.drop digits.length).dropWhile Char.isWhitespace
    match r1 with
    | '*' :: r2 =>
      let r3 := r2.dropWhile Char.isWhitespace
      match r3 with
      | c :: r4 =>
        if isWordCh c ∧ ¬ isDigitCh c then
          let identRest := r4.takeWhile isWordCh
          let ident := c :: identRest
          let r5 := r4.drop identRest.length
          match r5 with
          | '(' :: r6 =>
            let inner := r6.takeWhile (fun d => ¬ d = ')')
            if inner = [] then some (digits, ident, r5)
            else
              match r6.drop inner.length with
              | ')' :: r7 => some (digits, ident ++ '(' :: inner ++ [')'], r7)
              | _ => some (digits, ident, r5)
          | _ => some (digits, ident, r5)
        else none
      | [] => none
    | _ => none

/-- Left-to-right non-overlapping substitution of the multiplication pattern,
as performed by `re.sub(mult_pattern, r'Mul(\1,\2)', expr)`.  Fuel-driven;
the fuel is at least the input length, and every step either consumes the
head character or a non-empty match, so the fuel never runs out on the

initial call. -/
def mulSubGo : Nat → List Char → List Char
  | 0, l => l
  | _ + 1, [] => []
  | fuel + 1, c :: rest =>
    match tryMulMatch (c :: rest) with
    | some (g1, g2, remainder) =>
      ("Mul(".toList ++ g1 ++ ',' :: g2 ++ [')']) ++ mulSubGo fuel remainder
    | none => c :: mulSubGo fuel rest

/-- Multiplication rewriting pass of `_normalize_expression`. -/
def mulSub (l : List Char) : List Char :=
  mulSubGo (l.length + 1) l

/-- Transliteration of `_normalize_expression`: strip, return unchanged when
no arithmetic operator occurs, otherwise rewrite `n*token` to `Mul(n,token)`
and fold top-level `+` chains into left-nested `Add` applications. -/
def normalizeExpression (expr : List Char) : List Char :=
  let e := stripCh expr
  if ¬ (e.any (fun c => c = '+' ∨ c = '-' ∨ c = '*' ∨ c = '/')) then e
  else
    let e1 := mulSub e
    if '+' ∈ e1 then
      let terms := splitByOperator e1 '+'
      match terms with
      | t0 :: t1 :: ts =>
        (t1 :: ts).foldl
          (fun result term => "Add(".toList ++ result ++ ',' :: stripCh term ++ [')'])
          (stripCh t0)
      | _ => e1
    else e1

/-- Content capture of `re.match(r'Equal\((.*)\)', s)`: the input must start with
`Equal(` and contain a later `)`; the greedy `.*` captures everything up to
the last `)`, ignoring any trailing characters. -/
def equalMatchContent (s : List Char) : Option (List Char) :=
  if "Equal(".toList.isPrefixOf s then
    let rest := s.drop 6
    if ')' ∈ rest then
      some ((rest.reverse.dropWhile (fun c => ¬ c = ')')).drop 1).reverse
    else none
  else none

/-- Transliteration of `_normalize_equal_claim`: match the `Equal(...)`
shell, split the content at the top-level comma, normalize both sides and
reassemble; any failure returns the claim unchanged. -/
def normalizeEqualClaim (claimCdl : List Char) : List Char :=
  match equalMatchContent (stripCh claimCdl) with
  | none => claimCdl
  | some content =>
    match splitByComma content with
    | [left, right] =>
      "Equal(".toList ++ normalizeExpression (stripCh left) ++
        ',' :: normalizeExpression (stripCh right) ++ [')']
    | _ => claimCdl

/-- Scanner for `re.findall(r'\b([A-Z]+)\b', args)`: a match is a maximal run
of uppercase letters whose neighbouring characters (when present) are both
non-word characters.  The boolean flag records whether the previous character
was a word character.  Fuel-driven; each step consumes at least one character
so fuel `length + 1` suffices. -/
def upperRunsGo : Nat → Bool → List Char → List (List Char)
  | 0, _, _ => []
  | _ + 1, _, [] => []
  | fuel + 1, prevWord, c :: rest =>
    if isUpperCh c ∧ ¬ prevWord then
      let run := (c :: rest).takeWhile isUpperCh
      let after := (c :: rest).dropWhile isUpperCh
      match after with
      | [] => [run]
      | d :: _ =>
        if ¬ isWordCh d then run :: upperRunsGo fuel false after
        else upperRunsGo fuel true after
    else upperRunsGo fuel (isWordCh c) rest

/-- Uppercase point-name runs of an argument string. -/
def extractUpperRuns (l : List Char) : List (List Char) :=
  upperRunsGo (l.length + 1) false l

/-- Transliteration of `parse_claim_to_predicate`: match
`(\w+)\((.*)\)` against the stripped claim (the greedy `.*` captures up to
the last `)`), extract uppercase point-name runs from the argument string,
filter out the function names `LengthOfLine`, `MeasureOfAngle` and `Equal`
(dead in practice, since those contain lowercase letters), and flatten the
runs into the item tuple of single letters.  A failed match models the
raised `ValueError`. -/
def parseClaimToPredicate (claimCdl : String) : Except String (String × List Char) :=
  let s := stripCh claimCdl.toList
  let predChars := s.takeWhile isWordCh
  let rest := s.drop predChars.length
  match predChars, rest with
  | [], _ => .error ("Cannot parse claim: " ++ claimCdl)
  | _, '(' :: rest2 =>
    if ')' ∈ rest2 then
      let args := ((rest2.reverse.dropWhile (fun c => ¬ c = ')')).drop 1).reverse
      let names := (extractUpperRuns args).filter (fun r =>
        ¬ (r = "LengthOfLine".toList ∨ r = "MeasureOfAngle".toList ∨ r = "Equal".toList))
      .ok (String.mk predChars, names.flatten)
    else .error ("Cannot parse claim: " ++ claimCdl)
  | _, _ => .error ("Cannot parse claim: " ++ claimCdl)

/-- Transliteration of the `=`-rewriting prelude of `verify_single_step`:
when the claim contains `=` and its stripped form does not start with
`Equal(`, split at the first `=` and rewrite to `Equal(lhs,rhs)` provided
both stripped sides are non-empty. -/
def preprocessClaimCdl (claimCdl : String) : String :=
  let l := claimCdl.toList
  if '=' ∈ l ∧ ¬ ("Equal(".toList.isPrefixOf (stripCh l)) then
    let left := stripCh (l.takeWhile (fun c => ¬ c = '='))
    let right := stripCh ((l.dropWhile (fun c => ¬ c = '=')).drop 1)
    if ¬ left = [] ∧ ¬ right = [] then
      String.mk ("Equal(".toList ++ left ++ ',' :: right ++ [')'])
    else claimCdl
  else claimCdl

/-- Points, reason and confidence as returned by `calculate_deduction`. -/
structure DeductionInfo where
  points : Nat
  reason : String
  confidence : ℚ
  deriving DecidableEq, Repr

/-- Transliteration of `calculate_deduction`: the fixed deduction table with
the interpolated reason strings, falling back to a 10-point, 0.70-confidence
`unspecified error` entry for any error kind outside the table.  Python
prints `None` for an absent root cause, which the model reproduces. -/
def calculateDeduction (errorType : String) (stepId : Nat)
    (rootCauseStep : Option Nat) (details : Option String) : DeductionInfo :=
  let sid := toString stepId
  let det := (details.getD "")
  let rcs := match rootCauseStep with | some r => toString r | none => "None"
  if errorType = "global_misalignment" then
    ⟨100, "Solution does not serve the purpose of solving the problem", mkRat 95 100⟩
  else if errorType = "missing_premise" then
    ⟨20, "Step " ++ sid ++ " lacks necessary prerequisite - logical gap in reasoning", mkRat 90 100⟩
  else if errorType = "invalid_theorem" then
    ⟨20, "Step " ++ sid ++ " incorrectly applies theorem - prerequisites not met. " ++ det, mkRat 88 100⟩
  else if errorType = "wrong_conclusion" then
    ⟨20, "Step " ++ sid ++ " draws incorrect conclusion from theorem application. " ++ det, mkRat 92 100⟩
  else if errorType = "not_derivable" then
    ⟨20, "Step " ++ sid ++ " claims result that cannot be derived from current state", mkRat 85 100⟩
  else if errorType = "unknown_theorem" then
    ⟨20, "Step " ++ sid ++ " references unknown theorem. " ++ det, mkRat 87 100⟩
  else if errorType = "unknown_predicate" then
    ⟨15, "Step " ++ sid ++ " uses predicate not recognized by FormalGeo system", mkRat 80 100⟩
  else if errorType = "computation_error" then
    ⟨10, "Step " ++ sid ++ " contains local computational or algebraic error", mkRat 88 100⟩
  else if errorType = "syntax_error" then
    ⟨10, "Step " ++ sid ++ " has incorrect mathematical notation or format", mkRat 85 100⟩
  else if errorType = "cascading_error" then
    ⟨10, "Step " ++ sid ++ " error cascaded from incorrect step " ++ rcs, mkRat 85 100⟩
  else
    ⟨10, "Step " ++ sid ++ " has unspecified error: " ++ errorType, mkRat 70 100⟩

/-! Theorem-name matcher (`normalize_theorem_name`, `fuzzy_match_theorem`),
including a transliteration of CPython's `difflib.SequenceMatcher.ratio`
with `isjunk = None` (so the junk set is empty and the junk-extension loops
of `find_longest_match` never fire) and the autojunk rule for long second
sequences. -/

/-- Lowercase letter or digit: the character class kept by the
`re.sub(r'[^a-z0-9]+', '_', name.lower())` normalization. -/
def isLowerAlnum (c : Char) : Bool :=
  ('a' ≤ c ∧ c ≤ 'z') ∨ ('0' ≤ c ∧ c ≤ '9')

/-- Squeeze consecutive underscores to one; mapping every replaced character
to `_` and squeezing implements replacing each run `[^a-z0-9]+` by one `_`. -/
def squeezeUnderscores : List Char → List Char
  | [] => []
  | [c] => [c]
  | c :: d :: rest =>
    if c = '_' ∧ d = '_' then squeezeUnderscores (d :: rest)
    else c :: squeezeUnderscores (d :: rest)

/-- Transliteration of `normalize_theorem_name`: lowercase (ASCII suffices
for the theorem names in play), replace runs of other characters by a single
underscore, and strip leading and trailing underscores. -/
def normalizeTheoremName (name : String) : String :=
  let replaced := name.toList.map (fun c =>
    let lc := c.toLower
    if isLowerAlnum lc then lc else '_')
  let collapsed := squeezeUnderscores replaced
  String.mk (((collapsed.dropWhile (fun c => c = '_')).reverse.dropWhile
    (fun c => c = '_')).reverse)

/-- Python `s.split('_')`: split at every underscore, keeping empty chunks
(`"".split('_')` is `[""]`). -/
def splitUnderscoreGo : List Char → List Char → List String
  | [], cur => [String.mk cur.reverse]
  | c :: rest, cur =>
    if c = '_' then String.mk cur.reverse :: splitUnderscoreGo rest []
    else splitUnderscoreGo rest (c :: cur)

/-- Python `set(s.split('_'))` as a duplicate-free token list. -/
def keywordsOf (s : String) : List String :=
  (splitUnderscoreGo s.toList []).dedup

/-- Size of the keyword-set intersection used by the third matching tier. -/
def overlapCount (s t : String) : Nat :=
  ((keywordsOf s).filter (fun k => k ∈ keywordsOf t)).length

/-- Python substring test `needle in haystack`. -/
def containsSub : List Char → List Char → Bool
  | haystack, needle =>
    match haystack with
    | [] => needle.isEmpty
    | _ :: t => needle.isPrefixOf haystack || containsSub t needle

/-- Occurrence positions `b2j[ch]` of `SequenceMatcher.__chain_b`, in
ascending order; with autojunk, when `len(b) >= 200` a character occurring
more than `len(b)//100 + 1` times is popular and purged from `b2j`. -/
def b2jList (b : List Char) (ch : Char) : List Nat :=
  let pos := (b.enum.filter (fun p => p.2 = ch)).map (fun p => p.1)
  if 200 ≤ b.length ∧ b.length / 100 + 1 < pos.length then [] else pos

/-- Inner loop of `find_longest_match` over the occurrence list of `a[i]`:
`continue` below `blo`, `break` at `bhi`, and extend the dynamic-programming
table `j2len` while tracking the record block.  `j2len.get(j-1, 0)` for
`j = 0` reads Python key `-1`, which is absent, hence the zero guard. -/
def flmInner (blo bhi i : Nat) (j2len : Nat → Nat) :
    List Nat → (Nat → Nat) → Nat × Nat × Nat → ((Nat → Nat) × (Nat × Nat × Nat))
  | [], newj2len, best => (newj2len, best)
  | j :: js, newj2len, best =>
    if j < blo then flmInner blo bhi i j2len js newj2len best
    else if bhi ≤ j then (newj2len, best)
    else
      let k := (if j = 0 then 0 else j2len (j - 1)) + 1
      let newj2len2 := fun j2 => if j2 = j then k else newj2len j2
      let best2 := if best.2.2 < k then (i + 1 - k, j + 1 - k, k) else best
      flmInner blo bhi i j2len js newj2len2 best2

/-- Outer loop of `find_longest_match` over `i in range(alo, ahi)`. -/
def flmOuter (a b : List Char) (blo bhi : Nat) :
    List Nat → (Nat → Nat) → Nat × Nat × Nat → Nat × Nat × Nat
  | [], _, best => best
  | i :: iRest, j2len, best =>
    let r := flmInner blo bhi i j2len (b2jList b (a.getD i ' ')) (fun _ => 0) best
    flmOuter a b blo bhi iRest r.1 r.2

/-- Backward extension of the record block by equal characters (the junk set
is empty, so the `not isbjunk` guard always holds).  Fuel-driven; each step
decrements `besti`, so fuel `besti + 1` suffices. -/
def extendBack (a b : List Char) (alo blo : Nat) :
    Nat → Nat × Nat × Nat → Nat × Nat × Nat
  | 0, st => st
  | fuel + 1, (bi, bj, bs) =>
    if alo < bi ∧ blo < bj ∧ a.getD (bi - 1) ' ' = b.getD (bj - 1) ' ' then
      extendBack a b alo blo fuel (bi - 1, bj - 1, bs + 1)
    else (bi, bj, bs)

/-- Forward extension of the record block by equal characters. -/
def extendFwd (a b : List Char) (ahi bhi : Nat) :
    Nat → Nat × Nat × Nat → Nat × Nat × Nat
  | 0, st => st
  | fuel + 1, (bi, bj, bs) =>
    if bi + bs < ahi ∧ bj + bs < bhi ∧ a.getD (bi + bs) ' ' = b.getD (bj + bs) ' ' then
      extendFwd a b ahi bhi fuel (bi, bj, bs + 1)
    else (bi, bj, bs)

/-- Transliteration of `SequenceMatcher.find_longest_match` with
`isjunk = None`: dynamic-programming search for the longest matching block
(earliest in `a`, then earliest in `b` on ties), then extension by equal
characters on both ends; the final junk-extension loops never fire. -/
def findLongestMatch (a b : List Char) (alo ahi blo bhi : Nat) : Nat × Nat × Nat :=
  let best1 := flmOuter a b blo bhi (List.range' alo (ahi - alo)) (fun _ => 0) (alo, blo, 0)
  let best2 := extendBack a b alo blo (best1.1 + 1) best1
  extendFwd a b ahi bhi (ahi + 1) best2

/-- Total size of all matching blocks (the recursive decomposition of
`get_matching_blocks`; only the sum of the sizes matters for `ratio`).
Fuel-driven: every recursive call strictly shrinks `(ahi-alo)+(bhi-blo)`,
so the initial fuel `la + lb + 1` suffices. -/
def totalMatchesGo (a b : List Char) : Nat → Nat → Nat → Nat → Nat → Nat
  | 0, _, _, _, _ => 0
  | fuel + 1, alo, ahi, blo, bhi =>
    let m := findLongestMatch a b alo ahi blo bhi
    let i := m.1
    let j := m.2.1
    let k := m.2.2
    if k = 0 then 0
    else
      k + totalMatchesGo a b fuel alo i blo j + totalMatchesGo a b fuel (i + k) ahi (j + k) bhi

/-- Number of matched elements `M` of `SequenceMatcher`. -/
def totalMatches (a b : List Char) : Nat :=
  totalMatchesGo a b (a.length + b.length + 1) 0 a.length 0 b.length

/-- Transliteration of `SequenceMatcher(None, a, b).ratio() = 2M / T` with
`T = len(a) + len(b)` (and `1.0` for two empty sequences), computed exactly
in `ℚ`; the float comparisons in the matcher are far from the rounding error
of these small rationals, so exact arithmetic is faithful. -/
def gestaltSim (a b : List Char) : ℚ :=
  if a.length + b.length = 0 then 1
  else mkRat (2 * totalMatches a b) (a.length + b.length)

/-- Transliteration of `fuzzy_match_theorem`: empty names match nothing;
otherwise normalize and cascade through (1) exact membership, (2) first
theorem with substring containment in either direction, (3) keyword overlap
of at least two tokens, keeping the first theorem attaining the maximal
overlap (Python `max` returns the first maximum), and (4) the first theorem
attaining the maximal `ratio`, accepted only when that maximum is strictly
greater than `0.6`. -/
def fuzzyMatchTheorem (theoremGdl : List String) (studentName : String) : Option String :=
  if studentName = "" then none
  else
    let ns := normalizeTheoremName studentName
    if ns ∈ theoremGdl then some ns
    else
      match theoremGdl.find? (fun t =>
          containsSub t.toList ns.toList || containsSub ns.toList t.toList) with
      | some t => some t
      | none =>
        let pairs := theoremGdl.filterMap (fun t =>
          let ov := overlapCount ns t
          if 2 ≤ ov then some (t, ov) else none)
        match pairs with
        | m :: ms =>
          some (ms.foldl (fun best x => if best.2 < x.2 then x else best) m).1
        | [] =>
          let best := theoremGdl.foldl (fun (acc : ℚ × Option String) t =>
            let sim := gestaltSim ns.toList t.toList
            if acc.1 < sim then (sim, some t) else acc) (0, none)
          if mkRat 3 5 < best.1 then best.2 else none

/-- Earliest element attaining the maximal key: a later element replaces an
earlier one only by a strictly greater key.  This is the declarative "first
maximum" used to state the amended matcher contract. -/
def firstArgmax {α β : Type} [LinearOrder β] (key : α → β) : List α → Option α
  | [] => none
  | x :: xs =>
    match firstArgmax key xs with
    | none => some x
    | some y => if key x < key y then some y else some x

/-- The matcher cascade as the amended specification words it.  This
definition follows the corrected spec text, not the code, and the C4 theorem
compares it with `fuzzyMatchTheorem`: empty names match nothing; otherwise
(1) exact equality of the normalized name with a known theorem, (2) the first
theorem containing or contained in the name, (3) the earliest theorem (in GDL
list order, with no alphabetical tie-break) attaining the maximal keyword
overlap among theorems sharing at least two tokens, and (4) the earliest
theorem attaining the maximal Ratcliff-Obershelp similarity, accepted only
when that maximum is strictly greater than 0.6. -/
def fuzzyMatchAmended (theoremGdl : List String) (studentName : String) : Option String :=
  if studentName = "" then none
  else
    let ns := normalizeTheoremName studentName
    if ns ∈ theoremGdl then some ns
    else
      match theoremGdl.find? (fun t =>
          containsSub t.toList ns.toList || containsSub ns.toList t.toList) with
      | some t => some t
      | none =>
        match firstArgmax (fun t => overlapCount ns t)
            (theoremGdl.filter (fun t => 2 ≤ overlapCount ns t)) with
        | some t => some t
        | none =>
          match firstArgmax (fun t => gestaltSim ns.toList t.toList) theoremGdl with
          | none => none
          | some t =>
            if mkRat 3 5 < gestaltSim ns.toList t.toList then some t else none

/-! Step verifier and grader. -/

/-- Student step record: id, CDL claim, informal theorem name (empty string
when absent, matching the Python default) and declared dependencies. -/
structure Step where
  stepId : Nat
  claimCdl : String
  theoremName : String
  dependsOn : List Nat
  deriving DecidableEq, Repr

/-- Mirror of `StepVerificationResult` (the fields the verdict logic sets). -/
structure StepResult where
  stepId : Nat
  isValid : Bool
  errorType : Option String := none
  errorDetails : String := ""
  pointsDeducted : Nat := 0
  confidence : ℚ := 0
  isRedundant : Bool := false
  theoremApplied : Option String := none
  rootCauseStep : Option Nat := none
  deriving DecidableEq, Repr

/-- Cascade lookup of `verify_single_step` step 1: the first declared
dependency whose first matching prior result is invalid. -/
def firstInvalidDep (dependsOn : List Nat) (prev : List StepResult) : Option Nat :=
  dependsOn.find? (fun d =>
    match prev.find? (fun r => r.stepId = d) with
    | some r => ¬ r.isValid
    | none => false)

/-- Solver state snapshotted by `snapshot_solver_state`: the condition and
the timing bookkeeping (deep copies in Python; values here). -/
structure SolverState where
  condition : Condition
  timing : Nat
  deriving DecidableEq, Repr

/-- Outcome of the external `solver.apply_theorem` call: a normal return of
the truthiness of `update` together with the possibly mutated state, or a
raised exception (with its message and the state it left behind). -/
inductive ApplyOutcome where
  | returned : Bool → SolverState → ApplyOutcome
  | raised : String → SolverState → ApplyOutcome

/-- Oracles standing for the opaque external `formalgeo` package, fixed per
grading run: the theorem vocabulary (`theorem_gdl` keys in order), the
`Equal`-claim lowering (`parse_problem_cdl` plus `get_equation_from_tree`;
`none` collects every failure mode, including raised exceptions), whether an
external `condition.add` call executes without raising, the theorem
application, and the goal check as a pure function of the final knowledge
base (specification: goal evaluation is a pure function of final KB). -/
structure GraderCfg where
  theoremGdl : List String
  lowerEq : String → Option Nat
  addOk : String → KItem → Bool
  applyThm : String → Option (List Char) → SolverState → ApplyOutcome
  goalSolved : Condition → Bool

/-- Transliteration of `verify_single_step`: rewrite `lhs = rhs` claims,
check cascading dependencies, parse, then route through the `Equal` fast
path, the unknown-predicate assumption path, the knowledge-base membership
hit, and the assumption fallback.  Returns the verdict together with the
updated knowledge base. -/
def verifySingleStep (cfg : GraderCfg) (cond : Condition) (step : Step)
    (prev : List StepResult) : StepResult × Condition :=
  let stepId := step.stepId
  let claimCdl := preprocessClaimCdl step.claimCdl
  let tn := step.theoremName
  match firstInvalidDep step.dependsOn prev with
  | some depId =>
    let d := calculateDeduction "cascading_error" stepId (some depId) none
    ({ stepId := stepId, isValid := false, errorType := some "cascading_error",
       errorDetails := d.reason, pointsDeducted := d.points, confidence := d.confidence,
       rootCauseStep := some depId }, cond)
  | none =>
    match parseClaimToPredicate claimCdl with
    | .error msg =>
      let d := calculateDeduction "syntax_error" stepId none none
      ({ stepId := stepId, isValid := false, errorType := some "syntax_error",
         errorDetails := "Cannot parse claim: " ++ msg, pointsDeducted := d.points,
         confidence := d.confidence }, cond)
    | .ok (claimPredicate, claimItem) =>
      if claimPredicate = "Equal" then
        let normalizedCdl := String.mk (normalizeEqualClaim claimCdl.toList)
        let applied := some (if tn = "" then "algebraic_constraint" else tn)
        match cfg.lowerEq normalizedCdl with
        | some eqExpr =>
          if cfg.addOk "Equation" (.eqn eqExpr) then
            let r := cond.add "Equation" (.eqn eqExpr) []
              ("algebraic_constraint_step_" ++ toString stepId)
            ({ stepId := stepId, isValid := true, isRedundant := ¬ r.1,
               confidence := if r.1 then mkRat 85 100 else mkRat 80 100, theoremApplied := applied }, r.2.2)
          else
            ({ stepId := stepId, isValid := true, confidence := mkRat 75 100,
               theoremApplied := applied }, cond)
        | none =>
          ({ stepId := stepId, isValid := true, confidence := mkRat 75 100,
             theoremApplied := applied }, cond)
      else if ¬ (claimPredicate ∈ cond.itemsGroup) then
        let r := tryAddPredicateToKb cfg.addOk cond claimPredicate (.pts claimItem) stepId
        if r.1 then
          ({ stepId := stepId, isValid := true, confidence := mkRat 70 100,
             theoremApplied := some (if tn = "" then "assumption" else tn) }, r.2.2)
        else
          let d := calculateDeduction "unknown_predicate" stepId none none
          ({ stepId := stepId, isValid := false, errorType := some "unknown_predicate",
             errorDetails := d.reason, pointsDeducted := d.points,
             confidence := mkRat 60 100 }, r.2.2)
      else if checkConclusionExists cond claimPredicate (.pts claimItem) then
        ({ stepId := stepId, isValid := true, isRedundant := false,
           confidence := mkRat 90 100 }, cond)
      else
        let r := tryAddPredicateToKb cfg.addOk cond claimPredicate (.pts claimItem) stepId
        if r.1 then
          ({ stepId := stepId, isValid := true, confidence := mkRat 75 100,
             theoremApplied := some (if tn = "" then "assumption" else tn) }, r.2.2)
        else
          let d := calculateDeduction "not_derivable" stepId none none
          ({ stepId := stepId, isValid := false, errorType := some "not_derivable",
             errorDetails := d.reason, pointsDeducted := d.points,
             confidence := mkRat 50 100 }, r.2.2)

/-- Result dictionary of `verify_theorem_application` (the keys the routing
sets). -/
structure TAResult where
  isValid : Bool
  errorType : Option String := none
  errorDetails : String := ""
  matchedTheorem : Option String := none
  deriving DecidableEq, Repr

/-- Transliteration of `extract_theorem_parameters`: items here are already
flat letter tuples, so the nested-tuple flattening loop is the identity;
empty items yield `None`. -/
def extractTheoremParameters (_theoremName : String) (claimItem : List Char) :
    Option (List Char) :=
  if 0 < claimItem.length then some claimItem else none

/-- Transliteration of `verify_theorem_application`: fuzzy-match the theorem
name (`None` means `unknown_theorem`), extract parameters, snapshot the
solver state, attempt `apply_theorem`, and on a falsy update, a raised
exception or an absent claimed conclusion restore the snapshot; only a
successful application with the conclusion present keeps the new state. -/
def verifyTheoremApplication (cfg : GraderCfg) (st : SolverState)
    (theoremName claimPredicate : String) (claimItem : List Char) :
    TAResult × SolverState :=
  match fuzzyMatchTheorem cfg.theoremGdl theoremName with
  | none =>
    ({ isValid := false, errorType := some "unknown_theorem",
       errorDetails := "Cannot find theorem \x27" ++ theoremName ++
         "\x27 in knowledge base" }, st)
  | some matched =>
    let params := extractTheoremParameters matched claimItem
    let saved := st
    match cfg.applyThm matched params st with
    | .raised msg _ =>
      ({ isValid := false, errorType := some "formalgeo_error",
         errorDetails := "FormalGeo error: " ++ msg }, saved)
    | .returned update st1 =>
      if ¬ update then
        ({ isValid := false, errorType := some "invalid_theorem",
           errorDetails := "Theorem \x27" ++ matched ++
             "\x27 prerequisites not satisfied in current state" }, saved)
      else if checkConclusionExists st1.condition claimPredicate (.pts claimItem) then
        ({ isValid := true, matchedTheorem := some matched }, st1)
      else
        ({ isValid := false, errorType := some "wrong_conclusion",
           errorDetails := "Theorem \x27" ++ matched ++
             "\x27 does not produce the claimed conclusion" }, saved)

/-- Transliteration of `verify_step_sequence`: verify steps in order,
threading the knowledge base and accumulating results; a
`global_misalignment` verdict terminates the loop early (no step verdict of
`verify_single_step` ever carries that kind, so the break is dead in
practice, but it is modelled faithfully). -/
def verifyStepSequenceGo (cfg : GraderCfg) :
    Condition → List StepResult → List Step → List StepResult × Condition
  | cond, acc, [] => (acc, cond)
  | cond, acc, s :: rest =>
    let r := verifySingleStep cfg cond s acc
    let acc2 := acc ++ [r.1]
    if r.1.errorType = some "global_misalignment" then (acc2, r.2)
    else verifyStepSequenceGo cfg r.2 acc2 rest

/-- Sequential verification of all student steps. -/
def verifyStepSequence (cfg : GraderCfg) (cond : Condition) (steps : List Step) :
    List StepResult × Condition :=
  verifyStepSequenceGo cfg cond [] steps

/-- Deduction entry of the grading report (`to_deduction` and the synthetic
final/initialization deductions; entries built without an `error_type` key
carry `none`). -/
structure Deduction where
  deductedPoints : Nat
  deductionReason : String
  deductionConfidenceScore : ℚ
  deductionStep : String
  errorType : Option String := none
  deriving DecidableEq, Repr

/-- Transliteration of `StepVerificationResult.to_deduction`: `None` when no
points were deducted. -/
def toDeduction (r : StepResult) : Option Deduction :=
  if r.pointsDeducted = 0 then none
  else
    some { deductedPoints := r.pointsDeducted, deductionReason := r.errorDetails,
           deductionConfidenceScore := r.confidence,
           deductionStep := "step " ++ toString r.stepId, errorType := r.errorType }

/-- Per-step feedback dictionary of `to_feedback` (absent keys are `none`;
Python truthiness governs `theorem_applied` and `root_cause`). -/
structure Feedback where
  stepId : Nat
  isValid : Bool
  note : Option String := none
  errorType : Option String := none
  errorDetails : Option String := none
  rootCause : Option String := none
  theoremApplied : Option String := none
  confidence : ℚ
  deriving DecidableEq, Repr

/-- Transliteration of `StepVerificationResult.to_feedback`. -/
def toFeedback (r : StepResult) : Feedback :=
  if r.isValid then
    { stepId := r.stepId, isValid := true,
      note := some ("Step is correct" ++ (if r.isRedundant then " but redundant" else "")),
      theoremApplied := match r.theoremApplied with
        | some t => if t = "" then none else some t
        | none => none,
      confidence := r.confidence }
  else
    { stepId := r.stepId, isValid := false, errorType := r.errorType,
      errorDetails := some r.errorDetails,
      rootCause := match r.rootCauseStep with
        | some rc => if rc = 0 then none else some ("step " ++ toString rc)
        | none => none,
      confidence := r.confidence }

/-- Result of `identify_missing_steps` (the solver is always initialized on
this path): goal reached flag, missing-step descriptors as
(description, note) pairs, and the deduction points and reason of the
goal-not-reached branch. -/
structure MissingAnalysis where
  goalReached : Bool
  missingSteps : List (String × String)
  deductionPoints : Nat
  deductionReason : String
  deriving DecidableEq, Repr

/-- Transliteration of `identify_missing_steps` on an initialized solver. -/
def identifyMissingSteps (cfg : GraderCfg) (cond : Condition) : MissingAnalysis :=
  if cfg.goalSolved cond then
    { goalReached := true, missingSteps := [], deductionPoints := 0, deductionReason := "" }
  else
    { goalReached := false,
      missingSteps := [("Additional steps needed to reach goal", "Solution incomplete")],
      deductionPoints := 20,
      deductionReason := "Solution incomplete - goal not reached" }

/-- Transliteration of `generate_summary`. -/
def generateSummary (results : List StepResult) (goalReached : Bool) : String :=
  let validSteps := (results.filter (fun r => r.isValid)).length
  let totalSteps := results.length
  if validSteps = totalSteps ∧ goalReached then
    "Student demonstrated complete understanding and correctly solved the problem."
  else if 0 < validSteps then
    let parts0 := ["Student completed " ++ toString validSteps ++ "/" ++
      toString totalSteps ++ " steps correctly."]
    let parts1 := parts0 ++
      (if (totalSteps : ℚ) * 0.7 ≤ (validSteps : ℚ) then
        ["Shows good grasp of geometry concepts."] else [])
    let errorTypes := (results.filterMap (fun r => r.errorType)).filter (fun s => ¬ s = "")
    let parts2 := parts1 ++
      (if "invalid_theorem" ∈ errorTypes then
        ["Needs improvement in theorem application."] else [])
    let parts3 := parts2 ++
      (if "wrong_conclusion" ∈ errorTypes then
        ["Logical reasoning needs strengthening."] else [])
    let parts4 := parts3 ++
      (if ¬ goalReached then
        ["Solution incomplete - missing steps to reach goal."] else [])
    String.intercalate " " parts4
  else
    "Student needs significant support with geometry problem solving."

/-- Transliteration of `calculate_overall_confidence`: arithmetic mean of the
step confidences, zero for an empty list. -/
def calculateOverallConfidence (results : List StepResult) : ℚ :=
  if results = [] then 0
  else (results.map (fun r => r.confidence)).sum / (results.length : ℚ)

/-- Mirror of the `GradingReport` dataclass. -/
structure GradingReport where
  totalPoints : Int
  deductions : List Deduction
  stepFeedback : List Feedback
  missingSteps : List (String × String) := []
  goalReached : Bool := false
  confidence : ℚ := 0
  summary : String := ""
  deriving DecidableEq, Repr

/-- Transliteration of `grade_geometry_solution`: on initialization failure
return the synthetic 100-point deduction report; otherwise verify the steps,
run the goal check, sum all step deductions plus the goal-not-reached
deduction, clamp the score at zero, compile the deduction entries, filter
the ones with confidence below `0.5`, and assemble the report.  The
`initOk` flag stands for the outcome of `initialize_problem`, and
`initialCond` for the knowledge base seeded by `load_problem`. -/
def gradeGeometrySolution (cfg : GraderCfg) (initOk : Bool) (initialCond : Condition)
    (steps : List Step) : GradingReport :=
  if ¬ initOk then
    { totalPoints := 0,
      deductions := [{ deductedPoints := 100,
                       deductionReason := "Cannot initialize FormalGeo solver",
                       deductionConfidenceScore := 1,
                       deductionStep := "initialization" }],
      stepFeedback := [],
      confidence := 0,
      summary := "Unable to grade solution - FormalGeo initialization failed" }
  else
    let sr := verifyStepSequence cfg initialCond steps
    let stepResults := sr.1
    let missingAnalysis := identifyMissingSteps cfg sr.2
    let totalDeducted := (stepResults.map (fun r => r.pointsDeducted)).sum +
      (if ¬ missingAnalysis.goalReached then missingAnalysis.deductionPoints else 0)
    let totalPoints : Int := max 0 (100 - (totalDeducted : Int))
    let deductions := stepResults.filterMap toDeduction ++
      (if ¬ missingAnalysis.goalReached ∧ 0 < missingAnalysis.deductionPoints then
        [{ deductedPoints := missingAnalysis.deductionPoints,
           deductionReason := missingAnalysis.deductionReason,
           deductionConfidenceScore := mkRat 85 100,
           deductionStep := "final" }]
      else [])
    let deductions := deductions.filter (fun d => mkRat 1 2 ≤ d.deductionConfidenceScore)
    { totalPoints := totalPoints,
      deductions := deductions,
      stepFeedback := stepResults.map toFeedback,
      missingSteps := missingAnalysis.missingSteps,
      goalReached := missingAnalysis.goalReached,
      confidence := calculateOverallConfidence stepResults,
      summary := generateSummary stepResults missingAnalysis.goalReached }

/-! Claim theorems. -/

/-- C8: if problem initialization fails, the grade call still returns a
well-formed report containing total_points = 0, exactly one deduction of 100
points with confidence 1.0 and deduction_step "initialization", empty
step_feedback, and overall confidence 0; no step is verified (the report is
the synthetic literal, independent of the steps). -/
theorem c8_init_failure_report (cfg : GraderCfg) (cond : Condition) (steps : List Step) :
    gradeGeometrySolution cfg false cond steps =
      { totalPoints := 0,
        deductions := [{ deductedPoints := 100,
                         deductionReason := "Cannot initialize FormalGeo solver",
                         deductionConfidenceScore := 1,
                         deductionStep := "initialization",
                         errorType := none }],
        stepFeedback := [],
        missingSteps := [],
        goalReached := false,
        confidence := 0,
        summary := "Unable to grade solution - FormalGeo initialization failed" } := by
  rfl

/-- C10: the deduction calculator is total over error-kind strings: outside
the ten tabulated kinds it returns the 10-point, 0.70-confidence
"unspecified error" default, and on each tabulated kind it returns exactly
the tabulated points and confidence. -/
theorem c10_deduction_table_total (errorType : String) (stepId : Nat)
    (rootCauseStep : Option Nat) (details : Option String)
    (h : errorType ∉ (["global_misalignment", "missing_premise", "invalid_theorem",
        "wrong_conclusion", "not_derivable", "unknown_theorem", "unknown_predicate",
        "computation_error", "syntax_error", "cascading_error"] : List String)) :
    calculateDeduction errorType stepId rootCauseStep details =
      { points := 10,
        reason := "Step " ++ toString stepId ++ " has unspecified error: " ++ errorType,
        confidence := mkRat 70 100 }
    ∧ calculateDeduction "global_misalignment" stepId rootCauseStep details
        = { points := 100,
            reason := "Solution does not serve the purpose of solving the problem",
            confidence := mkRat 95 100 }
    ∧ (calculateDeduction "missing_premise" stepId rootCauseStep details).points = 20
    ∧ (calculateDeduction "missing_premise" stepId rootCauseStep details).confidence = mkRat 90 100
    ∧ (calculateDeduction "invalid_theorem" stepId rootCauseStep details).points = 20
    ∧ (calculateDeduction "invalid_theorem" stepId rootCauseStep details).confidence = mkRat 88 100
    ∧ (calculateDeduction "wrong_conclusion" stepId rootCauseStep details).points = 20
    ∧ (calculateDeduction "wrong_conclusion" stepId rootCauseStep details).confidence = mkRat 92 100
    ∧ (calculateDeduction "not_derivable" stepId rootCauseStep details).points = 20
    ∧ (calculateDeduction "not_derivable" stepId rootCauseStep details).confidence = mkRat 85 100
    ∧ (calculateDeduction "unknown_theorem" stepId rootCauseStep details).points = 20
    ∧ (calculateDeduction "unknown_theorem" stepId rootCauseStep details).confidence = mkRat 87 100
    ∧ (calculateDeduction "unknown_predicate" stepId rootCauseStep details).points = 15
    ∧ (calculateDeduction "unknown_predicate" stepId rootCauseStep details).confidence = mkRat 80 100
    ∧ (calculateDeduction "computation_error" stepId rootCauseStep details).points = 10
    ∧ (calculateDeduction "computation_error" stepId rootCauseStep details).confidence = mkRat 88 100
    ∧ (calculateDeduction "syntax_error" stepId rootCauseStep details).points = 10
    ∧ (calculateDeduction "syntax_error" stepId rootCauseStep details).confidence = mkRat 85 100
    ∧ (calculateDeduction "cascading_error" stepId rootCauseStep details).points = 10
    ∧ (calculateDeduction "cascading_error" stepId rootCauseStep details).confidence = mkRat 85 100 := by
  simp only [List.mem_cons, List.not_mem_nil, not_or, or_false] at h
  obtain ⟨h1, h2, h3, h4, h5, h6, h7, h8, h9, h10⟩ := h
  refine ⟨?_, ?_⟩
  · simp [calculateDeduction, h1, h2, h3, h4, h5, h6, h7, h8, h9, h10]
  · simp [calculateDeduction]

/-- C10 witness: the theorem applied to the concrete unknown kind
"formalgeo_error" (the one kind `verify_theorem_application` can produce
outside the table). -/
theorem c10_deduction_table_total_witness :
    calculateDeduction "formalgeo_error" 3 none none =
      { points := 10,
        reason := "Step " ++ toString 3 ++ " has unspecified error: " ++ "formalgeo_error",
        confidence := mkRat 70 100 }
    ∧ calculateDeduction "global_misalignment" 3 none none
        = { points := 100,
            reason := "Solution does not serve the purpose of solving the problem",
            confidence := mkRat 95 100 }
    ∧ (calculateDeduction "missing_premise" 3 none none).points = 20
    ∧ (calculateDeduction "missing_premise" 3 none none).confidence = mkRat 90 100
    ∧ (calculateDeduction "invalid_theorem" 3 none none).points = 20
    ∧ (calculateDeduction "invalid_theorem" 3 none none).confidence = mkRat 88 100
    ∧ (calculateDeduction "wrong_conclusion" 3 none none).points = 20
    ∧ (calculateDeduction "wrong_conclusion" 3 none none).confidence = mkRat 92 100
    ∧ (calculateDeduction "not_derivable" 3 none none).points = 20
    ∧ (calculateDeduction "not_derivable" 3 none none).confidence = mkRat 85 100
    ∧ (calculateDeduction "unknown_theorem" 3 none none).points = 20
    ∧ (calculateDeduction "unknown_theorem" 3 none none).confidence = mkRat 87 100
    ∧ (calculateDeduction "unknown_predicate" 3 none none).points = 15
    ∧ (calculateDeduction "unknown_predicate" 3 none none).confidence = mkRat 80 100
    ∧ (calculateDeduction "computation_error" 3 none none).points = 10
    ∧ (calculateDeduction "computation_error" 3 none none).confidence = mkRat 88 100
    ∧ (calculateDeduction "syntax_error" 3 none none).points = 10
    ∧ (calculateDeduction "syntax_error" 3 none none).confidence = mkRat 85 100
    ∧ (calculateDeduction "cascading_error" 3 none none).points = 10
    ∧ (calculateDeduction "cascading_error" 3 none none).confidence = mkRat 85 100 :=
  c10_deduction_table_total "formalgeo_error" 3 none none (by decide)

/-- C3: when depends_on contains the id of an earlier step whose verdict was
invalid, the verifier emits an Invalid verdict of kind cascading_error with
10 points deducted, confidence 0.85, and root_cause the (first such)
dependency id, leaving the knowledge base untouched and without parsing or
checking the current claim (the claim string, theorem name and knowledge
base are universally quantified and do not influence the verdict). -/
theorem c3_cascade_precedence (cfg : GraderCfg) (cond : Condition) (step : Step)
    (prev : List StepResult)
    (h : ∃ d ∈ step.dependsOn, ∃ r, prev.find? (fun r0 => r0.stepId = d) = some r ∧
      r.isValid = false) :
    ∃ depId, firstInvalidDep step.dependsOn prev = some depId ∧
      verifySingleStep cfg cond step prev =
        ({ stepId := step.stepId, isValid := false, errorType := some "cascading_error",
           errorDetails := "Step " ++ toString step.stepId ++
             " error cascaded from incorrect step " ++ toString depId,
           pointsDeducted := 10, confidence := mkRat 85 100,
           rootCauseStep := some depId }, cond) := by
  have hsome : (firstInvalidDep step.dependsOn prev).isSome := by
    unfold firstInvalidDep
    apply List.find?_isSome.mpr
    obtain ⟨d, hd, r, hr, hrv⟩ := h
    refine ⟨d, hd, ?_⟩
    simp [hr, hrv]
  obtain ⟨depId, hfind⟩ := Option.isSome_iff_exists.mp hsome
  refine ⟨depId, hfind, ?_⟩
  simp [verifySingleStep, hfind, calculateDeduction]

/-- Shared concrete adapter configuration used by witnesses and
counterexamples: a single known theorem, an equation lowering that always
fails, external adds that never raise, a theorem application that never
updates, and a goal check that never closes. -/
def cfgBasic : GraderCfg :=
  { theoremGdl := ["triangle_angle_sum"], lowerEq := fun _ => none,
    addOk := fun _ _ => true, applyThm := fun _ _ st => .returned false st,
    goalSolved := fun _ => false }

/-- Shared empty knowledge base. -/
def condEmptyKb : Condition :=
  { facts := [], nextId := 0, itemsGroup := [], fixLengthPredicates := [],
    variableLengthPredicates := [] }

/-- Shared knowledge base whose vocabulary knows the `Triangle` predicate. -/
def condTriangleKb : Condition :=
  { facts := [], nextId := 0, itemsGroup := ["Triangle"], fixLengthPredicates := [],
    variableLengthPredicates := [] }

/-- Shared prior result list containing a single invalid step 2. -/
def prevInvalid2 : List StepResult :=
  [{ stepId := 2, isValid := false, confidence := 0 }]

/-- C3 witness: a concrete step depending on the invalid step 2. -/
theorem c3_cascade_precedence_witness :
    ∃ depId,
      firstInvalidDep [2] prevInvalid2 = some depId ∧
      verifySingleStep cfgBasic condEmptyKb
        { stepId := 5, claimCdl := "Triangle(DEF)", theoremName := "", dependsOn := [2] }
        prevInvalid2 =
        ({ stepId := 5, isValid := false, errorType := some "cascading_error",
           errorDetails := "Step " ++ toString 5 ++
             " error cascaded from incorrect step " ++ toString depId,
           pointsDeducted := 10, confidence := mkRat 85 100,
           rootCauseStep := some depId }, condEmptyKb) :=
  c3_cascade_precedence cfgBasic condEmptyKb
    { stepId := 5, claimCdl := "Triangle(DEF)", theoremName := "", dependsOn := [2] }
    prevInvalid2
    ⟨2, by decide, { stepId := 2, isValid := false, confidence := 0 }, by decide, by decide⟩

/-- C6: a theorem-application attempt that fails in any way (unmatched name,
raised exception, falsy update, or absent claimed conclusion) leaves the
solver state exactly as it was before the attempt, and the state is kept
changed only when the attempt succeeds, in which case the claimed conclusion
is present in the resulting knowledge base. -/
theorem c6_rollback_fidelity (cfg : GraderCfg) (st : SolverState) (tn cp : String)
    (it : List Char) :
    ((verifyTheoremApplication cfg st tn cp it).1.isValid = false →
      (verifyTheoremApplication cfg st tn cp it).2 = st)
    ∧ ((verifyTheoremApplication cfg st tn cp it).1.isValid = true →
      checkConclusionExists (verifyTheoremApplication cfg st tn cp it).2.condition cp
        (.pts it) = true) := by
  unfold verifyTheoremApplication
  cases hm : fuzzyMatchTheorem cfg.theoremGdl tn with
  | none => simp
  | some matched =>
    simp only []
    cases ha : cfg.applyThm matched (extractTheoremParameters matched it) st with
    | raised msg st1 => simp
    | returned update st1 =>
      cases update with
      | false => simp
      | true =>
        by_cases hc : checkConclusionExists st1.condition cp (.pts it)
        · simp [hc]
        · simp [hc]

/-- Slot initialization leaves the fact list untouched. -/
theorem ensurePredicateSlot_facts (cond : Condition) (p : String) :
    (ensurePredicateSlot cond p).facts = cond.facts := by
  unfold ensurePredicateSlot
  split <;> rfl

/-- Slot initialization leaves the fresh-id counter untouched. -/
theorem ensurePredicateSlot_nextId (cond : Condition) (p : String) :
    (ensurePredicateSlot cond p).nextId = cond.nextId := by
  unfold ensurePredicateSlot
  split <;> rfl

/-- Membership is a function of the fact list alone. -/
theorem Condition.has_eq_of_facts {c d : Condition} (h : c.facts = d.facts)
    (p : String) (it : KItem) : c.has p it = d.has p it := by
  unfold Condition.has
  rw [h]

/-- C9: for every successful `_try_add_predicate_to_kb` of an `Angle` fact
with a three-letter item, the reversed fact is present afterwards; moreover,
whenever the reversed fact was not already in the knowledge base (which can
only happen on its own for palindromic items), the reversed entry carries
the freshly assigned id of the base fact as its sole premise and the
`angle_symmetry` provenance tag. -/
theorem c9_angle_symmetry_closure (ak : String → KItem → Bool) (cond : Condition)
    (x y z : Char) (sid nid : Nat) (cond' : Condition)
    (h : tryAddPredicateToKb ak cond "Angle" (.pts [x, y, z]) sid = (true, some nid, cond')) :
    cond'.has "Angle" (.pts [z, y, x]) = true
    ∧ (cond.has "Angle" (.pts [z, y, x]) = false → ¬ z = x →
       ∃ f ∈ cond'.facts, f.predicate = "Angle" ∧ f.item = .pts [z, y, x]
         ∧ f.premise = [nid] ∧ f.theoremTag = "angle_symmetry") := by
  unfold tryAddPredicateToKb at h
  simp only [] at h
  by_cases hak1 : ak "Angle" (KItem.pts [x, y, z])
  swap
  · simp [hak1] at h
  rw [if_neg (by simp [hak1])] at h
  set cond1 := ensurePredicateSlot cond "Angle" with hc1
  by_cases hhas1 : cond1.has "Angle" (KItem.pts [x, y, z])
  · simp [Condition.add, hhas1] at h
  have hhas1f : cond1.has "Angle" (KItem.pts [x, y, z]) = false :=
    Bool.not_eq_true _ ▸ hhas1
  have hc2 : cond1.add "Angle" (KItem.pts [x, y, z]) []
      ("assumption_step_" ++ toString sid) = (true, some cond1.nextId,
        { cond1 with
          facts := cond1.facts ++ [⟨cond1.nextId, "Angle", .pts [x, y, z], [],
            "assumption_step_" ++ toString sid⟩],
          nextId := cond1.nextId + 1 }) := by
    simp [Condition.add, hhas1f]
  rw [hc2] at h
  generalize hR2 : ({ cond1 with
      facts := cond1.facts ++ [⟨cond1.nextId, "Angle", .pts [x, y, z], [],
        "assumption_step_" ++ toString sid⟩],
      nextId := cond1.nextId + 1 } : Condition) = cond2 at h
  have hfacts2 : cond2.facts = cond1.facts ++
      [⟨cond1.nextId, "Angle", .pts [x, y, z], [], "assumption_step_" ++ toString sid⟩] := by
    rw [← hR2]
  simp only [KItem.isLen3, KItem.revAngle] at h
  rw [if_pos (by simp)] at h
  by_cases hak2 : ak "Angle" (KItem.pts [z, y, x])
  swap
  · rw [if_pos (by simp [hak2])] at h
    simp at h
  rw [if_neg (by simp [hak2])] at h
  by_cases hhas2 : cond2.has "Angle" (KItem.pts [z, y, x])
  · have hadd2 : (cond2.add "Angle" (KItem.pts [z, y, x]) [(some cond1.nextId).getD 0]
        "angle_symmetry").2.2 = cond2 := by
      simp [Condition.add, hhas2]
    rw [hadd2] at h
    simp only [Prod.mk.injEq, Option.some.injEq, true_and] at h
    obtain ⟨hnid, hcond⟩ := h
    subst hnid
    subst hcond
    refine ⟨hhas2, ?_⟩
    intro hmiss hzx
    exfalso
    have hbase : cond1.has "Angle" (KItem.pts [z, y, x]) = false := by
      rw [Condition.has_eq_of_facts (ensurePredicateSlot_facts cond "Angle")]
      exact hmiss
    rw [Condition.has, hfacts2] at hhas2
    simp only [List.any_append, List.any_cons, List.any_nil,
      Bool.or_false, Bool.or_eq_true] at hhas2
    rw [Condition.has] at hbase
    rcases hhas2 with hl | hr
    · rw [hbase] at hl
      exact Bool.false_ne_true hl
    · simp at hr
      exact hzx hr.2
  · have hhas2f : cond2.has "Angle" (KItem.pts [z, y, x]) = false :=
      Bool.not_eq_true _ ▸ hhas2
    have hc3 : cond2.add "Angle" (KItem.pts [z, y, x]) [(some cond1.nextId).getD 0]
        "angle_symmetry" = (true, some cond2.nextId,
          { cond2 with
            facts := cond2.facts ++ [⟨cond2.nextId, "Angle", .pts [z, y, x],
              [(some cond1.nextId).getD 0], "angle_symmetry"⟩],
            nextId := cond2.nextId + 1 }) := by
      simp [Condition.add, hhas2f]
    rw [hc3] at h
    generalize hR3 : ({ cond2 with
        facts := cond2.facts ++ [⟨cond2.nextId, "Angle", .pts [z, y, x],
          [(some cond1.nextId).getD 0], "angle_symmetry"⟩],
        nextId := cond2.nextId + 1 } : Condition) = cond3 at h
    have hfacts3 : cond3.facts = cond2.facts ++
        [⟨cond2.nextId, "Angle", .pts [z, y, x], [(some cond1.nextId).getD 0],
          "angle_symmetry"⟩] := by
      rw [← hR3]
    simp only [Prod.mk.injEq, Option.some.injEq, true_and] at h
    obtain ⟨hnid, hcond⟩ := h
    subst hnid
    subst hcond
    constructor
    · rw [Condition.has, hfacts3]
      simp
    · intro _ _
      refine ⟨⟨cond2.nextId, "Angle", .pts [z, y, x], [(some cond1.nextId).getD 0],
        "angle_symmetry"⟩, ?_, rfl, rfl, by simp, rfl⟩
      rw [hfacts3]
      simp

/-- Knowledge base resulting from adding `Angle(X,Y,Z)` to the empty one:
the base fact plus the symmetric fact with premise `[0]`. -/
def condAfterAngle : Condition :=
  { facts := [⟨0, "Angle", .pts ['X', 'Y', 'Z'], [], "assumption_step_4"⟩,
              ⟨1, "Angle", .pts ['Z', 'Y', 'X'], [0], "angle_symmetry"⟩],
    nextId := 2, itemsGroup := ["Angle"], fixLengthPredicates := [],
    variableLengthPredicates := ["Angle"] }

/-- C9 witness: the concrete successful add of `Angle(X,Y,Z)` to the empty
knowledge base. -/
theorem c9_angle_symmetry_closure_witness :
    condAfterAngle.has "Angle" (.pts ['Z', 'Y', 'X']) = true
    ∧ (condEmptyKb.has "Angle" (.pts ['Z', 'Y', 'X']) = false → ¬ 'Z' = 'X' →
       ∃ f ∈ condAfterAngle.facts, f.predicate = "Angle" ∧ f.item = .pts ['Z', 'Y', 'X']
         ∧ f.premise = [0] ∧ f.theoremTag = "angle_symmetry") :=
  c9_angle_symmetry_closure (fun _ _ => true) condEmptyKb 'X' 'Y' 'Z' 4 0 condAfterAngle
    (by decide)

/-- C1 counterexample: a step whose predicate `Triangle` is in the
vocabulary, whose item is absent from the knowledge base, and which supplies
the theorem name "zzz" that the matcher cannot resolve (the matcher returns
`none` on it).  The claim predicts an Invalid verdict of kind
unknown_theorem with 20 points and confidence 0.87; the code instead admits
the claim as an assumption with a Valid verdict, confidence 0.75 and no
deduction. -/
theorem c1_counterexample :
    fuzzyMatchTheorem cfgBasic.theoremGdl "zzz" = none
    ∧ (verifySingleStep cfgBasic condTriangleKb
        { stepId := 1, claimCdl := "Triangle(ABC)", theoremName := "zzz", dependsOn := [] }
        []).1 =
      { stepId := 1, isValid := true, confidence := mkRat 75 100, theoremApplied := some "zzz" }
    ∧ ¬ (verifySingleStep cfgBasic condTriangleKb
        { stepId := 1, claimCdl := "Triangle(ABC)", theoremName := "zzz", dependsOn := [] }
        []).1.isValid = false
    ∧ (verifySingleStep cfgBasic condTriangleKb
        { stepId := 1, claimCdl := "Triangle(ABC)", theoremName := "zzz", dependsOn := [] }
        []).1.pointsDeducted = 0 := by
  decide

/-- C1 amended: `verify_single_step` never routes through the theorem-name
matcher.  For every step that passes the cascade check, parses to a
non-`Equal` predicate in the vocabulary whose item is not yet in the
knowledge base, the verifier takes the assumption path regardless of the
supplied theorem_name: Valid with confidence 0.75 when the assumption add
succeeds, Invalid not_derivable with 20 points and confidence 0.50 when it
fails.  The matcher, snapshot and `apply_theorem` logic lives only in
`verify_theorem_application`, which `verify_single_step` never invokes. -/
theorem c1_amended_assumption_path (cfg : GraderCfg) (cond : Condition) (step : Step)
    (prev : List StepResult) (p : String) (it : List Char)
    (hdep : firstInvalidDep step.dependsOn prev = none)
    (hparse : parseClaimToPredicate (preprocessClaimCdl step.claimCdl) = .ok (p, it))
    (hne : ¬ p = "Equal")
    (hvocab : p ∈ cond.itemsGroup)
    (hmiss : cond.has p (.pts it) = false) :
    verifySingleStep cfg cond step prev =
      (if (tryAddPredicateToKb cfg.addOk cond p (.pts it) step.stepId).1 then
        ({ stepId := step.stepId, isValid := true, confidence := mkRat 75 100,
           theoremApplied := some (if step.theoremName = "" then "assumption"
             else step.theoremName) },
         (tryAddPredicateToKb cfg.addOk cond p (.pts it) step.stepId).2.2)
      else
        ({ stepId := step.stepId, isValid := false, errorType := some "not_derivable",
           errorDetails := "Step " ++ toString step.stepId ++
             " claims result that cannot be derived from current state",
           pointsDeducted := 20, confidence := mkRat 50 100 },
         (tryAddPredicateToKb cfg.addOk cond p (.pts it) step.stepId).2.2))
    ∧ ¬ (verifySingleStep cfg cond step prev).1.errorType = some "unknown_theorem"
    ∧ ¬ (verifySingleStep cfg cond step prev).1.errorType = some "invalid_theorem"
    ∧ ¬ (verifySingleStep cfg cond step prev).1.errorType = some "wrong_conclusion" := by
  have hmain : verifySingleStep cfg cond step prev =
      (if (tryAddPredicateToKb cfg.addOk cond p (.pts it) step.stepId).1 then
        ({ stepId := step.stepId, isValid := true, confidence := mkRat 75 100,
           theoremApplied := some (if step.theoremName = "" then "assumption"
             else step.theoremName) },
         (tryAddPredicateToKb cfg.addOk cond p (.pts it) step.stepId).2.2)
      else
        ({ stepId := step.stepId, isValid := false, errorType := some "not_derivable",
           errorDetails := "Step " ++ toString step.stepId ++
             " claims result that cannot be derived from current state",
           pointsDeducted := 20, confidence := mkRat 50 100 },
         (tryAddPredicateToKb cfg.addOk cond p (.pts it) step.stepId).2.2)) := by
    unfold verifySingleStep
    rw [hdep]
    simp only []
    rw [hparse]
    simp only []
    rw [if_neg hne, if_neg (by simp [hvocab]),
      if_neg (by simp [checkConclusionExists, hvocab, hmiss])]
    split
    · rfl
    · simp [calculateDeduction]
  refine ⟨hmain, ?_, ?_, ?_⟩ <;> rw [hmain] <;> split <;> simp

/-- C1 amended witness: the concrete input of the counterexample, where the
assumption add succeeds. -/
theorem c1_amended_assumption_path_witness :
    verifySingleStep cfgBasic condTriangleKb
      { stepId := 1, claimCdl := "Triangle(ABC)", theoremName := "zzz", dependsOn := [] }
      [] =
      (if (tryAddPredicateToKb cfgBasic.addOk condTriangleKb "Triangle"
            (.pts ['A', 'B', 'C']) 1).1 then
        ({ stepId := 1, isValid := true, confidence := mkRat 75 100,
           theoremApplied := some (if ("zzz" : String) = "" then "assumption" else "zzz") },
         (tryAddPredicateToKb cfgBasic.addOk condTriangleKb "Triangle"
           (.pts ['A', 'B', 'C']) 1).2.2)
      else
        ({ stepId := 1, isValid := false, errorType := some "not_derivable",
           errorDetails := "Step " ++ toString 1 ++
             " claims result that cannot be derived from current state",
           pointsDeducted := 20, confidence := mkRat 50 100 },
         (tryAddPredicateToKb cfgBasic.addOk condTriangleKb "Triangle"
           (.pts ['A', 'B', 'C']) 1).2.2))
    ∧ ¬ (verifySingleStep cfgBasic condTriangleKb
        { stepId := 1, claimCdl := "Triangle(ABC)", theoremName := "zzz", dependsOn := [] }
        []).1.errorType = some "unknown_theorem"
    ∧ ¬ (verifySingleStep cfgBasic condTriangleKb
        { stepId := 1, claimCdl := "Triangle(ABC)", theoremName := "zzz", dependsOn := [] }
        []).1.errorType = some "invalid_theorem"
    ∧ ¬ (verifySingleStep cfgBasic condTriangleKb
        { stepId := 1, claimCdl := "Triangle(ABC)", theoremName := "zzz", dependsOn := [] }
        []).1.errorType = some "wrong_conclusion" :=
  c1_amended_assumption_path cfgBasic condTriangleKb
    { stepId := 1, claimCdl := "Triangle(ABC)", theoremName := "zzz", dependsOn := [] }
    [] "Triangle" ['A', 'B', 'C'] (by decide) (by rfl) (by decide) (by decide) (by decide)

/-- C5: every step whose parsed predicate is `Equal` gets a Valid verdict
and never an Invalid one: confidence 0.85 (mkRat 85 100) with
redundant = false when the lowered equation is newly added to the equation
store, confidence 0.80 with redundant = true when it was already present,
and confidence 0.75 with redundant = false when the claim cannot be lowered
(including every failure or raise of the equation parser, and a raising
store add). -/
theorem c5_equal_always_valid (cfg : GraderCfg) (cond : Condition) (step : Step)
    (prev : List StepResult) (it : List Char)
    (hdep : firstInvalidDep step.dependsOn prev = none)
    (hparse : parseClaimToPredicate (preprocessClaimCdl step.claimCdl) =
      .ok ("Equal", it)) :
    (verifySingleStep cfg cond step prev).1.isValid = true
    ∧ (verifySingleStep cfg cond step prev).1.pointsDeducted = 0
    ∧ (verifySingleStep cfg cond step prev).1.errorType = none
    ∧ (match cfg.lowerEq
        (String.mk (normalizeEqualClaim (preprocessClaimCdl step.claimCdl).toList)) with
       | some e =>
         if cfg.addOk "Equation" (.eqn e) then
           (if cond.has "Equation" (.eqn e) then
             (verifySingleStep cfg cond step prev).1.confidence = mkRat 80 100
             ∧ (verifySingleStep cfg cond step prev).1.isRedundant = true
           else
             (verifySingleStep cfg cond step prev).1.confidence = mkRat 85 100
             ∧ (verifySingleStep cfg cond step prev).1.isRedundant = false)
         else
           (verifySingleStep cfg cond step prev).1.confidence = mkRat 75 100
           ∧ (verifySingleStep cfg cond step prev).1.isRedundant = false
       | none =>
         (verifySingleStep cfg cond step prev).1.confidence = mkRat 75 100
         ∧ (verifySingleStep cfg cond step prev).1.isRedundant = false) := by
  have hred : verifySingleStep cfg cond step prev =
      (match cfg.lowerEq
          (String.mk (normalizeEqualClaim (preprocessClaimCdl step.claimCdl).toList)) with
       | some eqExpr =>
         if cfg.addOk "Equation" (.eqn eqExpr) then
           ({ stepId := step.stepId, isValid := true,
              isRedundant := ¬ (cond.add "Equation" (.eqn eqExpr) []
                ("algebraic_constraint_step_" ++ toString step.stepId)).1,
              confidence := if (cond.add "Equation" (.eqn eqExpr) []
                  ("algebraic_constraint_step_" ++ toString step.stepId)).1 then
                mkRat 85 100 else mkRat 80 100,
              theoremApplied := some (if step.theoremName = "" then "algebraic_constraint"
                else step.theoremName) },
            (cond.add "Equation" (.eqn eqExpr) []
              ("algebraic_constraint_step_" ++ toString step.stepId)).2.2)
         else
           ({ stepId := step.stepId, isValid := true, confidence := mkRat 75 100,
              theoremApplied := some (if step.theoremName = "" then "algebraic_constraint"
                else step.theoremName) }, cond)
       | none =>
         ({ stepId := step.stepId, isValid := true, confidence := mkRat 75 100,
            theoremApplied := some (if step.theoremName = "" then "algebraic_constraint"
              else step.theoremName) }, cond)) := by
    unfold verifySingleStep
    rw [hdep]
    simp only []
    rw [hparse]
    simp only []
    rw [if_pos trivial]
  rw [hred]
  cases hle : cfg.lowerEq
      (String.mk (normalizeEqualClaim (preprocessClaimCdl step.claimCdl).toList)) with
  | none => simp
  | some e =>
    by_cases hok : cfg.addOk "Equation" (.eqn e)
    · by_cases hhas : cond.has "Equation" (.eqn e)
      · simp [hok, hhas, Condition.add]
      · simp only [Bool.not_eq_true] at hhas
        simp [hok, hhas, Condition.add]
    · simp [hok]

/-- Shared adapter configuration whose equation lowering always succeeds
with equation 1. -/
def cfgEqOk : GraderCfg :=
  { theoremGdl := [], lowerEq := fun _ => some 1, addOk := fun _ _ => true,
    applyThm := fun _ _ st => .returned false st, goalSolved := fun _ => false }

/-- C5 witness: a concrete `Equal` step on the empty knowledge base with a
successful lowering, yielding the newly-added branch. -/
theorem c5_equal_always_valid_witness :
    (verifySingleStep cfgEqOk condEmptyKb
      { stepId := 7, claimCdl := "Equal(x,5)", theoremName := "", dependsOn := [] }
      []).1.isValid = true
    ∧ (verifySingleStep cfgEqOk condEmptyKb
        { stepId := 7, claimCdl := "Equal(x,5)", theoremName := "", dependsOn := [] }
        []).1.pointsDeducted = 0
    ∧ (verifySingleStep cfgEqOk condEmptyKb
        { stepId := 7, claimCdl := "Equal(x,5)", theoremName := "", dependsOn := [] }
        []).1.errorType = none
    ∧ (match cfgEqOk.lowerEq (String.mk (normalizeEqualClaim
        (preprocessClaimCdl "Equal(x,5)").toList)) with
       | some e =>
         if cfgEqOk.addOk "Equation" (.eqn e) then
           (if condEmptyKb.has "Equation" (.eqn e) then
             (verifySingleStep cfgEqOk condEmptyKb
               { stepId := 7, claimCdl := "Equal(x,5)", theoremName := "", dependsOn := [] }
               []).1.confidence = mkRat 80 100
             ∧ (verifySingleStep cfgEqOk condEmptyKb
                 { stepId := 7, claimCdl := "Equal(x,5)", theoremName := "", dependsOn := [] }
                 []).1.isRedundant = true
           else
             (verifySingleStep cfgEqOk condEmptyKb
               { stepId := 7, claimCdl := "Equal(x,5)", theoremName := "", dependsOn := [] }
               []).1.confidence = mkRat 85 100
             ∧ (verifySingleStep cfgEqOk condEmptyKb
                 { stepId := 7, claimCdl := "Equal(x,5)", theoremName := "", dependsOn := [] }
                 []).1.isRedundant = false)
         else
           (verifySingleStep cfgEqOk condEmptyKb
             { stepId := 7, claimCdl := "Equal(x,5)", theoremName := "", dependsOn := [] }
             []).1.confidence = mkRat 75 100
           ∧ (verifySingleStep cfgEqOk condEmptyKb
               { stepId := 7, claimCdl := "Equal(x,5)", theoremName := "", dependsOn := [] }
               []).1.isRedundant = false
       | none =>
         (verifySingleStep cfgEqOk condEmptyKb
           { stepId := 7, claimCdl := "Equal(x,5)", theoremName := "", dependsOn := [] }
           []).1.confidence = mkRat 75 100
         ∧ (verifySingleStep cfgEqOk condEmptyKb
             { stepId := 7, claimCdl := "Equal(x,5)", theoremName := "", dependsOn := [] }
             []).1.isRedundant = false) :=
  c5_equal_always_valid cfgEqOk condEmptyKb
    { stepId := 7, claimCdl := "Equal(x,5)", theoremName := "", dependsOn := [] }
    [] [] (by decide) (by rfl)

/-- Every verdict of `verify_single_step` carries confidence at least 0.5:
the possible values are 0.85, 0.85, 0.85/0.80/0.75, 0.70, 0.60, 0.90, 0.75
and 0.50. -/
theorem verifySingleStep_conf_ge_half (cfg : GraderCfg) (cond : Condition) (step : Step)
    (prev : List StepResult) :
    mkRat 1 2 ≤ (verifySingleStep cfg cond step prev).1.confidence := by
  have h60 : mkRat 1 2 ≤ mkRat 60 100 := by decide
  have h70 : mkRat 1 2 ≤ mkRat 70 100 := by decide
  have h75 : mkRat 1 2 ≤ mkRat 75 100 := by decide
  have h80 : mkRat 1 2 ≤ mkRat 80 100 := by decide
  have h85 : mkRat 1 2 ≤ mkRat 85 100 := by decide
  have h90 : mkRat 1 2 ≤ mkRat 90 100 := by decide
  have h50 : mkRat 1 2 ≤ mkRat 50 100 := by decide
  unfold verifySingleStep
  cases firstInvalidDep step.dependsOn prev with
  | some d =>
    simp only [calculateDeduction]
    exact h85
  | none =>
    simp only []
    cases parseClaimToPredicate (preprocessClaimCdl step.claimCdl) with
    | error msg =>
      simp only [calculateDeduction]
      exact h85
    | ok pr =>
      obtain ⟨p, it⟩ := pr
      simp only []
      by_cases he : p = "Equal"
      · rw [if_pos he]
        cases cfg.lowerEq
            (String.mk (normalizeEqualClaim (preprocessClaimCdl step.claimCdl).toList)) with
        | none =>
          simp only []
          exact h75
        | some e =>
          simp only []
          by_cases hok : cfg.addOk "Equation" (.eqn e)
          · rw [if_pos hok]
            simp only []
            split
            · exact h85
            · exact h80
          · rw [if_neg hok]
            exact h75
      · rw [if_neg he]
        by_cases hv : p ∈ cond.itemsGroup
        · rw [if_neg (by simp [hv])]
          by_cases hc : checkConclusionExists cond p (.pts it) = true
          · rw [if_pos hc]
            exact h90
          · rw [if_neg hc]
            split
            · exact h75
            · simp only [calculateDeduction]
              exact h50
        · rw [if_pos (by simp [hv])]
          split
          · exact h70
          · simp only [calculateDeduction]
            exact h60

/-- The points of the compiled step deductions sum to the points deducted
over all step results (zero-point results are dropped by `to_deduction` and
contribute nothing). -/
theorem filterMap_toDeduction_points_sum (rs : List StepResult) :
    ((rs.filterMap toDeduction).map (fun d => d.deductedPoints)).sum
      = (rs.map (fun r => r.pointsDeducted)).sum := by
  induction rs with
  | nil => rfl
  | cons r rs ih =>
    by_cases h : r.pointsDeducted = 0
    · simp [toDeduction, h, ih]
    · simp [toDeduction, h, ih]

/-- A compiled step deduction inherits the confidence of its result. -/
theorem toDeduction_confidence {r : StepResult} {d : Deduction}
    (h : toDeduction r = some d) : d.deductionConfidenceScore = r.confidence := by
  unfold toDeduction at h
  split at h
  · exact absurd h (by simp)
  · injection h with h2
    rw [← h2]

/-- Every result accumulated by the step loop has confidence at least 0.5,
provided the accumulator starts that way. -/
theorem verifyStepSequenceGo_conf (cfg : GraderCfg) (steps : List Step) :
    ∀ (cond : Condition) (acc : List StepResult),
      (∀ r ∈ acc, mkRat 1 2 ≤ r.confidence) →
      ∀ r ∈ (verifyStepSequenceGo cfg cond acc steps).1, mkRat 1 2 ≤ r.confidence := by
  induction steps with
  | nil => exact fun cond acc hacc r hr => hacc r hr
  | cons s ss ih =>
    intro cond acc hacc r hr
    have hgrow : ∀ r2 ∈ acc ++ [(verifySingleStep cfg cond s acc).1],
        mkRat 1 2 ≤ r2.confidence := by
      intro r2 hr2
      rcases List.mem_append.mp hr2 with h2 | h2
      · exact hacc r2 h2
      · rw [List.mem_singleton.mp h2]
        exact verifySingleStep_conf_ge_half cfg cond s acc
    unfold verifyStepSequenceGo at hr
    simp only [] at hr
    split at hr
    · exact hgrow r hr
    · exact ih _ _ hgrow r hr

/-- All step results of a full run have confidence at least 0.5. -/
theorem verifyStepSequence_conf (cfg : GraderCfg) (cond : Condition) (steps : List Step) :
    ∀ r ∈ (verifyStepSequence cfg cond steps).1, mkRat 1 2 ≤ r.confidence :=
  verifyStepSequenceGo_conf cfg steps cond [] (by simp)

/-- The synthetic goal-not-reached deduction appended by the grader when the
goal check fails (20 points, confidence 0.85, step "final"). -/
def goalDeduction (ma : MissingAnalysis) : List Deduction :=
  if ¬ ma.goalReached ∧ 0 < ma.deductionPoints then
    [{ deductedPoints := ma.deductionPoints, deductionReason := ma.deductionReason,
       deductionConfidenceScore := mkRat 85 100, deductionStep := "final" }]
  else []

/-- C2 amended: the grader accepts every deduction it generates (each one
carries confidence at least 0.5, so the 0.5 filter removes nothing), and
`total_points = max(0, 100 − Σ reported deductions)`.  Consequently
`total_points + Σ deducted_points = 100` holds exactly when the reported sum
is at most 100; when the deduction sum exceeds 100 the score is clamped to 0
and the books no longer balance, contrary to the claim's unconditional
equation. -/
theorem c2_amended_clamped_score (cfg : GraderCfg) (initOk : Bool) (cond : Condition)
    (steps : List Step) :
    (gradeGeometrySolution cfg initOk cond steps).totalPoints =
      max 0 (100 - (((gradeGeometrySolution cfg initOk cond steps).deductions.map
        (fun d => (d.deductedPoints : Int))).sum))
    ∧ (∀ d ∈ (gradeGeometrySolution cfg initOk cond steps).deductions,
        mkRat 1 2 ≤ d.deductionConfidenceScore)
    ∧ ((((gradeGeometrySolution cfg initOk cond steps).deductions.map
          (fun d => (d.deductedPoints : Int))).sum ≤ 100) →
        (gradeGeometrySolution cfg initOk cond steps).totalPoints +
          (((gradeGeometrySolution cfg initOk cond steps).deductions.map
            (fun d => (d.deductedPoints : Int))).sum) = 100)
    ∧ ((100 < (((gradeGeometrySolution cfg initOk cond steps).deductions.map
          (fun d => (d.deductedPoints : Int))).sum)) →
        (gradeGeometrySolution cfg initOk cond steps).totalPoints = 0) := by
  cases initOk with
  | false =>
    have hrep0 : gradeGeometrySolution cfg false cond steps =
        { totalPoints := 0,
          deductions := [{ deductedPoints := 100,
                           deductionReason := "Cannot initialize FormalGeo solver",
                           deductionConfidenceScore := 1,
                           deductionStep := "initialization" }],
          stepFeedback := [],
          missingSteps := [],
          goalReached := false,
          confidence := 0,
          summary := "Unable to grade solution - FormalGeo initialization failed" } := rfl
    refine ⟨?_, ?_, ?_, ?_⟩ <;> rw [hrep0] <;> decide
  | true =>
    have hrep : gradeGeometrySolution cfg true cond steps =
        { totalPoints := max 0 (100 -
            ((((verifyStepSequence cfg cond steps).1.map (fun r => r.pointsDeducted)).sum +
              (if ¬ (identifyMissingSteps cfg
                  (verifyStepSequence cfg cond steps).2).goalReached then
                (identifyMissingSteps cfg
                  (verifyStepSequence cfg cond steps).2).deductionPoints
              else 0) : Nat) : Int)),
          deductions := ((verifyStepSequence cfg cond steps).1.filterMap toDeduction ++
            goalDeduction (identifyMissingSteps cfg
              (verifyStepSequence cfg cond steps).2)).filter
                (fun d => mkRat 1 2 ≤ d.deductionConfidenceScore),
          stepFeedback := (verifyStepSequence cfg cond steps).1.map toFeedback,
          missingSteps := (identifyMissingSteps cfg
            (verifyStepSequence cfg cond steps).2).missingSteps,
          goalReached := (identifyMissingSteps cfg
            (verifyStepSequence cfg cond steps).2).goalReached,
          confidence := calculateOverallConfidence (verifyStepSequence cfg cond steps).1,
          summary := generateSummary (verifyStepSequence cfg cond steps).1
            (identifyMissingSteps cfg (verifyStepSequence cfg cond steps).2).goalReached } := by
      unfold gradeGeometrySolution goalDeduction
      rw [if_neg (by simp)]
    have hconf0 : ∀ d ∈ (verifyStepSequence cfg cond steps).1.filterMap toDeduction ++
        goalDeduction (identifyMissingSteps cfg (verifyStepSequence cfg cond steps).2),
        mkRat 1 2 ≤ d.deductionConfidenceScore := by
      intro d hd
      rcases List.mem_append.mp hd with h | h
      · obtain ⟨r, hr, hrd⟩ := List.mem_filterMap.mp h
        rw [toDeduction_confidence hrd]
        exact verifyStepSequence_conf cfg cond steps r hr
      · unfold goalDeduction at h
        split at h
        · rw [List.mem_singleton.mp h]
          exact (by decide : mkRat 1 2 ≤ mkRat 85 100)
        · exact absurd h (List.not_mem_nil d)
    have hfilter : ((verifyStepSequence cfg cond steps).1.filterMap toDeduction ++
        goalDeduction (identifyMissingSteps cfg
          (verifyStepSequence cfg cond steps).2)).filter
            (fun d => mkRat 1 2 ≤ d.deductionConfidenceScore) =
        (verifyStepSequence cfg cond steps).1.filterMap toDeduction ++
          goalDeduction (identifyMissingSteps cfg (verifyStepSequence cfg cond steps).2) :=
      List.filter_eq_self.mpr (fun d hd => decide_eq_true (hconf0 d hd))
    have hcast : ∀ l : List Deduction,
        (l.map (fun d => (d.deductedPoints : Int))).sum =
          ((((l.map (fun d => d.deductedPoints)).sum : Nat) : Int)) := by
      intro l
      induction l with
      | nil => rfl
      | cons a as iha =>
        simp only [List.map_cons, List.sum_cons, iha]
        push_cast
        ring
    have hgd : ((goalDeduction (identifyMissingSteps cfg
        (verifyStepSequence cfg cond steps).2)).map (fun d => d.deductedPoints)).sum =
        (if ¬ (identifyMissingSteps cfg
            (verifyStepSequence cfg cond steps).2).goalReached then
          (identifyMissingSteps cfg (verifyStepSequence cfg cond steps).2).deductionPoints
        else 0) := by
      unfold goalDeduction
      split
      · rename_i hcond2
        have hgf : (identifyMissingSteps cfg
            (verifyStepSequence cfg cond steps).2).goalReached = false :=
          Bool.not_eq_true _ ▸ hcond2.1
        simp [hgf]
      · rename_i hcond2
        rcases Decidable.not_and_iff_or_not.mp hcond2 with hg | hp
        · have hgt : (identifyMissingSteps cfg
              (verifyStepSequence cfg cond steps).2).goalReached = true := not_not.mp hg
          simp [hgt]
        · have h0 : (identifyMissingSteps cfg
              (verifyStepSequence cfg cond steps).2).deductionPoints = 0 := by omega
          simp [h0]
    have hsum : (((gradeGeometrySolution cfg true cond steps).deductions.map
        (fun d => (d.deductedPoints : Int))).sum) =
        ((((verifyStepSequence cfg cond steps).1.map (fun r => r.pointsDeducted)).sum +
          (if ¬ (identifyMissingSteps cfg
              (verifyStepSequence cfg cond steps).2).goalReached then
            (identifyMissingSteps cfg
              (verifyStepSequence cfg cond steps).2).deductionPoints
          else 0) : Nat) : Int) := by
      rw [hrep]
      simp only [hfilter, List.map_append, List.sum_append]
      rw [hcast, hcast]
      rw [filterMap_toDeduction_points_sum, hgd]
      push_cast
      ring
    have htp : (gradeGeometrySolution cfg true cond steps).totalPoints =
        max 0 (100 - (((gradeGeometrySolution cfg true cond steps).deductions.map
          (fun d => (d.deductedPoints : Int))).sum)) := by
      rw [hsum, hrep]
    refine ⟨htp, ?_, ?_, ?_⟩
    · intro d hd
      rw [hrep, hfilter] at hd
      exact hconf0 d hd
    · intro hle
      rw [htp]
      omega
    · intro hgt
      rw [htp]
      omega

/-- Nine unparseable steps, each drawing a 10-point syntax_error deduction;
together with the 20-point goal-not-reached deduction the total reaches 110
points, past the clamp. -/
def stepsNine : List Step :=
  (List.range 9).map (fun i =>
    { stepId := i + 1, claimCdl := "???", theoremName := "", dependsOn := [] })

/-- C2 counterexample: a run in which no deduction has confidence below 0.5
(so the claim's "equivalently" clause applies) and yet
`total_points + Σ deducted_points = 110 ≠ 100`, because the 110 points of
deductions are clamped to a zero score. -/
theorem c2_counterexample :
    (∀ d ∈ (gradeGeometrySolution cfgBasic true condEmptyKb stepsNine).deductions,
      ¬ (d.deductionConfidenceScore < mkRat 1 2))
    ∧ (gradeGeometrySolution cfgBasic true condEmptyKb stepsNine).totalPoints = 0
    ∧ ((gradeGeometrySolution cfgBasic true condEmptyKb stepsNine).deductions.map
        (fun d => (d.deductedPoints : Int))).sum = 110
    ∧ ¬ ((gradeGeometrySolution cfgBasic true condEmptyKb stepsNine).totalPoints +
        ((gradeGeometrySolution cfgBasic true condEmptyKb stepsNine).deductions.map
          (fun d => (d.deductedPoints : Int))).sum = 100) := by
  decide

/-- C2 witness: on the empty step list the reported deductions sum to 20 and
the books balance, discharging the amended theorem's unclamped hypothesis at
a concrete input. -/
theorem c2_amended_clamped_score_witness :
    (gradeGeometrySolution cfgBasic true condEmptyKb []).totalPoints +
      ((gradeGeometrySolution cfgBasic true condEmptyKb []).deductions.map
        (fun d => (d.deductedPoints : Int))).sum = 100 :=
  (c2_amended_clamped_score cfgBasic true condEmptyKb []).2.2.1 (by decide)

/-- `str.strip` keeps a list whose first and last characters are
non-whitespace. -/
lemma stripCh_cons_concat (x y : Char) (m : List Char)
    (hx : x.isWhitespace = false) (hy : y.isWhitespace = false) :
    stripCh (x :: (m ++ [y])) = x :: (m ++ [y]) := by
  unfold stripCh
  rw [List.dropWhile_cons_of_neg (by simp [hx])]
  rw [show (x :: (m ++ [y])).reverse = y :: (m.reverse ++ [x]) from by simp]
  rw [List.dropWhile_cons_of_neg (by simp [hy])]
  rw [show (y :: (m.reverse ++ [x])).reverse = x :: (m ++ [y]) from by simp]

/-- The comma-split scanner accumulates (reversed) over any run of characters
that are neither parentheses nor a separating comma at depth 0. -/
lemma splitByCommaGo_run (m : List Char) (rest cur : List Char) (depth : Int)
    (hm : ∀ ch ∈ m, ¬ ch = '(' ∧ ¬ ch = ')' ∧ ¬ (ch = ',' ∧ depth = 0)) :
    splitByCommaGo (m ++ rest) cur depth = splitByCommaGo rest (m.reverse ++ cur) depth := by
  induction m generalizing cur with
  | nil => simp
  | cons ch m ih =>
    obtain ⟨h1, h2, h3⟩ := hm ch (by simp)
    have hstep : splitByCommaGo ((ch :: m) ++ rest) cur depth
        = splitByCommaGo (m ++ rest) (ch :: cur) depth := by
      rw [List.cons_append]
      simp only [splitByCommaGo]
      rw [if_neg h1, if_neg h2, if_neg h3]
    rw [hstep, ih (ch :: cur) (fun d hd => hm d (List.mem_cons_of_mem _ hd))]
    simp

/-- The comma-split scanner: an opening parenthesis raises the depth. -/
lemma splitByCommaGo_open (rest cur : List Char) (depth : Int) :
    splitByCommaGo ('(' :: rest) cur depth = splitByCommaGo rest ('(' :: cur) (depth + 1) := by
  simp [splitByCommaGo]

/-- The comma-split scanner: a closing parenthesis lowers the depth. -/
lemma splitByCommaGo_close (rest cur : List Char) (depth : Int) :
    splitByCommaGo (')' :: rest) cur depth = splitByCommaGo rest (')' :: cur) (depth - 1) := by
  simp [splitByCommaGo]

/-- The comma-split scanner: a comma at depth 0 flushes the current chunk. -/
lemma splitByCommaGo_comma (rest cur : List Char) (depth : Int) (hd : depth = 0) :
    splitByCommaGo (',' :: rest) cur depth = cur.reverse :: splitByCommaGo rest [] depth := by
  subst hd
  simp [splitByCommaGo]

/-- Characterization of `_normalize_equal_claim` on the success path: when the
claim is already stripped, the `Equal(...)` shell matches with content `C` and
the content splits in exactly two parts, the result reassembles the two
normalized sides. -/
lemma normalizeEqualClaim_eq (s C l r : List Char)
    (h0 : stripCh s = s) (h1 : equalMatchContent s = some C)
    (h2 : splitByComma C = [l, r]) :
    normalizeEqualClaim s = "Equal(".toList ++ normalizeExpression (stripCh l) ++
      ',' :: normalizeExpression (stripCh r) ++ [')'] := by
  unfold normalizeEqualClaim
  rw [h0, h1]
  show (match splitByComma C with
    | [left, right] => "Equal(".toList ++ normalizeExpression (stripCh left) ++
        ',' :: normalizeExpression (stripCh right) ++ [')']
    | _ => s) = "Equal(".toList ++ normalizeExpression (stripCh l) ++
      ',' :: normalizeExpression (stripCh r) ++ [')']
  rw [h2]

/-- C7 counterexample: normalization of `Equal(MeasureOfAngle(CBA),40)`
returns the claim unchanged even though the first letter `C` exceeds the
last letter `A`; the claimed canonicalization to
`Equal(MeasureOfAngle(ABC),40)` does not happen. -/
theorem c7_counterexample :
    normalizeEqualClaim "Equal(MeasureOfAngle(CBA),40)".toList =
      "Equal(MeasureOfAngle(CBA),40)".toList
    ∧ ¬ (normalizeEqualClaim "Equal(MeasureOfAngle(CBA),40)".toList =
      "Equal(MeasureOfAngle(ABC),40)".toList) := by
  decide

/-- C7 amended: normalization performs no angle canonicalization at all —
for any three argument letters (any characters other than parentheses and
the four arithmetic operators), `_normalize_equal_claim` returns the claim
`Equal(MeasureOfAngle(XYZ),40)` unchanged, whether or not the first and
last letters are in ascending order.  In particular already-canonical angle
tokens are left unchanged, and so are non-canonical ones. -/
theorem c7_amended_no_canonicalization (a b c : Char)
    (ha : ¬ a = '(' ∧ ¬ a = ')' ∧ ¬ a = '+' ∧ ¬ a = '-' ∧ ¬ a = '*' ∧ ¬ a = '/')
    (hb : ¬ b = '(' ∧ ¬ b = ')' ∧ ¬ b = '+' ∧ ¬ b = '-' ∧ ¬ b = '*' ∧ ¬ b = '/')
    (hc : ¬ c = '(' ∧ ¬ c = ')' ∧ ¬ c = '+' ∧ ¬ c = '-' ∧ ¬ c = '*' ∧ ¬ c = '/') :
    normalizeEqualClaim ("Equal(MeasureOfAngle(".toList ++ [a, b, c] ++ "),40)".toList)
      = "Equal(MeasureOfAngle(".toList ++ [a, b, c] ++ "),40)".toList := by
  obtain ⟨ha1, ha2, ha3, ha4, ha5, ha6⟩ := ha
  obtain ⟨hb1, hb2, hb3, hb4, hb5, hb6⟩ := hb
  obtain ⟨hc1, hc2, hc3, hc4, hc5, hc6⟩ := hc
  have hstrip : stripCh ("Equal(MeasureOfAngle(".toList ++ [a, b, c] ++ "),40)".toList)
      = "Equal(MeasureOfAngle(".toList ++ [a, b, c] ++ "),40)".toList := by
    rw [show ("Equal(MeasureOfAngle(".toList ++ [a, b, c] ++ "),40)".toList : List Char)
        = 'E' :: (("qual(MeasureOfAngle(".toList ++ [a, b, c] ++ "),40".toList) ++ [')']) from rfl]
    exact stripCh_cons_concat 'E' ')' _ (by decide) (by decide)
  have hmem : (')' : Char) ∈ (("Equal(MeasureOfAngle(".toList ++ [a, b, c] ++ "),40)".toList).drop 6) := by
    rw [show ((("Equal(MeasureOfAngle(".toList ++ [a, b, c] ++ "),40)".toList).drop 6) : List Char)
        = "MeasureOfAngle(".toList ++ ([a, b, c] ++ "),40)".toList) from rfl]
    exact List.mem_append.mpr (Or.inr (List.mem_append.mpr (Or.inr (by decide))))
  have hemc : equalMatchContent ("Equal(MeasureOfAngle(".toList ++ [a, b, c] ++ "),40)".toList)
      = some ("MeasureOfAngle".toList ++ ('(' :: ([a, b, c] ++ (')' :: (',' :: ('4' :: ('0' :: []))))))) := by
    have hrw : equalMatchContent ("Equal(MeasureOfAngle(".toList ++ [a, b, c] ++ "),40)".toList)
        = if (')' : Char) ∈ (("Equal(MeasureOfAngle(".toList ++ [a, b, c] ++ "),40)".toList).drop 6)
          then some ((((("Equal(MeasureOfAngle(".toList ++ [a, b, c] ++ "),40)".toList).drop 6).reverse.dropWhile
              (fun d => ¬ d = ')')).drop 1).reverse)
          else none := rfl
    rw [hrw, if_pos hmem]
    rfl
  have hM : ∀ ch ∈ "MeasureOfAngle".toList,
      ¬ ch = '(' ∧ ¬ ch = ')' ∧ ¬ (ch = ',' ∧ (0 : Int) = 0) := by decide
  have hA : ∀ ch ∈ [a, b, c], ¬ ch = '(' ∧ ¬ ch = ')' ∧ ¬ (ch = ',' ∧ ((0 : Int) + 1) = 0) := by
    have hno : ¬ (((0 : Int) + 1) = 0) := by decide
    intro ch hch
    simp only [List.mem_cons, List.not_mem_nil, or_false] at hch
    rcases hch with rfl | rfl | rfl
    · exact ⟨ha1, ha2, fun hand => hno hand.2⟩
    · exact ⟨hb1, hb2, fun hand => hno hand.2⟩
    · exact ⟨hc1, hc2, fun hand => hno hand.2⟩
  have hsplit : splitByComma ("MeasureOfAngle".toList ++ ('(' :: ([a, b, c] ++ (')' :: (',' :: ('4' :: ('0' :: [])))))))
      = ["MeasureOfAngle".toList ++ ('(' :: ([a, b, c] ++ [')'])), ['4', '0']] := by
    unfold splitByComma
    rw [splitByCommaGo_run "MeasureOfAngle".toList _ _ 0 hM]
    rw [splitByCommaGo_open]
    rw [splitByCommaGo_run [a, b, c] _ _ ((0 : Int) + 1) hA]
    rw [splitByCommaGo_close]
    have hd0 : ((0 : Int) + 1 - 1) = 0 := by decide
    rw [splitByCommaGo_comma _ _ _ hd0]
    rw [show splitByCommaGo ('4' :: ('0' :: [])) [] ((0 : Int) + 1 - 1) = [['4', '0']] from rfl]
    simp
  have hstrip1 : stripCh ("MeasureOfAngle".toList ++ ('(' :: ([a, b, c] ++ [')'])))
      = "MeasureOfAngle".toList ++ ('(' :: ([a, b, c] ++ [')'])) := by
    rw [show (("MeasureOfAngle".toList ++ ('(' :: ([a, b, c] ++ [')']))) : List Char)
        = 'M' :: (("easureOfAngle(".toList ++ [a, b, c]) ++ [')']) from rfl]
    exact stripCh_cons_concat 'M' ')' _ (by decide) (by decide)
  have hss1 : stripCh (stripCh ("MeasureOfAngle".toList ++ ('(' :: ([a, b, c] ++ [')']))))
      = "MeasureOfAngle".toList ++ ('(' :: ([a, b, c] ++ [')'])) := by
    rw [hstrip1, hstrip1]
  have hpa : (decide (a = '+' ∨ a = '-' ∨ a = '*' ∨ a = '/')) = false := by
    simp [ha3, ha4, ha5, ha6]
  have hpb : (decide (b = '+' ∨ b = '-' ∨ b = '*' ∨ b = '/')) = false := by
    simp [hb3, hb4, hb5, hb6]
  have hpc : (decide (c = '+' ∨ c = '-' ∨ c = '*' ∨ c = '/')) = false := by
    simp [hc3, hc4, hc5, hc6]
  have hMany : ("MeasureOfAngle".toList.any (fun ch => ch = '+' ∨ ch = '-' ∨ ch = '*' ∨ ch = '/')) = false := rfl
  have hany1 : (("MeasureOfAngle".toList ++ ('(' :: ([a, b, c] ++ [')']))).any
      (fun ch => ch = '+' ∨ ch = '-' ∨ ch = '*' ∨ ch = '/')) = false := by
    simp only [List.any_append, List.any_cons, List.any_nil, hMany, hpa, hpb, hpc]
    decide
  have hne1 : normalizeExpression (stripCh ("MeasureOfAngle".toList ++ ('(' :: ([a, b, c] ++ [')']))))
      = "MeasureOfAngle".toList ++ ('(' :: ([a, b, c] ++ [')'])) := by
    simp only [normalizeExpression]
    rw [hss1, hany1]
    simp
  have hne2 : normalizeExpression (stripCh ['4', '0']) = ['4', '0'] := rfl
  rw [normalizeEqualClaim_eq _ _ _ _ hstrip hemc hsplit]
  rw [hne1, hne2]
  rfl

/-- C7 witness: the amended theorem applied to the non-canonical token
`ZYX`. -/
theorem c7_amended_no_canonicalization_witness :
    normalizeEqualClaim ("Equal(MeasureOfAngle(".toList ++ ['Z', 'Y', 'X'] ++ "),40)".toList)
      = "Equal(MeasureOfAngle(".toList ++ ['Z', 'Y', 'X'] ++ "),40)".toList :=
  c7_amended_no_canonicalization 'Z' 'Y' 'X' (by decide) (by decide) (by decide)

/-- The first maximum as computed by a left fold that replaces the
accumulator only on a strictly greater key. -/
lemma foldl_merge_firstArgmax {α β : Type} [LinearOrder β] (key : α → β) (xs : List α) :
    ∀ x : α, some (xs.foldl (fun best t => if key best < key t then t else best) x)
      = firstArgmax key (x :: xs) := by
  induction xs with
  | nil => intro x; simp [firstArgmax]
  | cons w ws ih =>
    intro x
    rw [List.foldl_cons]
    rw [ih (if key x < key w then w else x)]
    simp only [firstArgmax]
    cases hws : firstArgmax key ws with
    | none =>
      show some (if key x < key w then w else x)
          = match (some w : Option α) with
            | none => some x
            | some y => if key x < key y then some y else some x
      show some (if key x < key w then w else x) = if key x < key w then some w else some x
      by_cases h1 : key x < key w
      · rw [if_pos h1, if_pos h1]
      · rw [if_neg h1, if_neg h1]
    | some y =>
      show (if key (if key x < key w then w else x) < key y then some y
            else some (if key x < key w then w else x))
          = match (if key w < key y then some y else some w : Option α) with
            | none => some x
            | some y => if key x < key y then some y else some x
      by_cases h1 : key x < key w
      · rw [if_pos h1]
        by_cases h2 : key w < key y
        · rw [if_pos h2]
          show some y = if key x < key y then some y else some x
          rw [if_pos (lt_trans h1 h2)]
        · rw [if_neg h2]
          show some w = if key x < key w then some w else some x
          rw [if_pos h1]
      · rw [if_neg h1]
        by_cases h2 : key w < key y
        · rw [if_pos h2]
        · rw [if_neg h2]
          have h3 : ¬ key x < key y :=
            fun hc => absurd hc (not_lt_of_ge (le_trans (le_of_not_lt h2) (le_of_not_lt h1)))
          show (if key x < key y then some y else some x)
              = if key x < key w then some w else some x
          rw [if_neg h3, if_neg h1]

/-- A fold that keeps a pair of an element and its key, replacing on a
strictly greater key, tracks exactly the element-level merge fold. -/
lemma foldl_pair_merge {α β : Type} [LinearOrder β] (key : α → β) (cs : List α) :
    ∀ s : α, cs.foldl (fun acc x => if acc.2 < key x then (x, key x) else acc) (s, key s)
      = (cs.foldl (fun best t => if key best < key t then t else best) s,
         key (cs.foldl (fun best t => if key best < key t then t else best) s)) := by
  induction cs with
  | nil => intro s; rfl
  | cons w ws ih =>
    intro s
    simp only [List.foldl_cons]
    by_cases h : key s < key w
    · rw [if_pos h, if_pos h]
      exact ih w
    · rw [if_neg h, if_neg h]
      exact ih s

/-- The similarity fold of the fourth matcher tier, once seeded with an
actual candidate, tracks the element-level merge fold. -/
lemma foldl_sim_merge {α : Type} (key : α → ℚ) (cs : List α) :
    ∀ s : α, cs.foldl (fun acc x => if acc.1 < key x then (key x, some x) else acc) (key s, some s)
      = (key (cs.foldl (fun best t => if key best < key t then t else best) s),
         some (cs.foldl (fun best t => if key best < key t then t else best) s)) := by
  induction cs with
  | nil => intro s; rfl
  | cons w ws ih =>
    intro s
    simp only [List.foldl_cons]
    by_cases h : key s < key w
    · rw [if_pos h, if_pos h]
      exact ih w
    · rw [if_neg h, if_neg h]
      exact ih s

/-- Merging from two seeds of nonpositive key either keeps both results
nonpositive or makes them agree (they can only differ while no positive key
has been seen). -/
lemma foldl_merge_le {α : Type} (key : α → ℚ) (us : List α) :
    ∀ s u : α, key s ≤ 0 → key u ≤ 0 →
      (key (us.foldl (fun best t => if key best < key t then t else best) s) ≤ 0
        ∧ key (us.foldl (fun best t => if key best < key t then t else best) u) ≤ 0)
      ∨ us.foldl (fun best t => if key best < key t then t else best) s
          = us.foldl (fun best t => if key best < key t then t else best) u := by
  induction us with
  | nil => intro s u hs hu; exact Or.inl ⟨hs, hu⟩
  | cons w ws ih =>
    intro s u hs hu
    simp only [List.foldl_cons]
    by_cases hw : (0 : ℚ) < key w
    · rw [if_pos (lt_of_le_of_lt hs hw), if_pos (lt_of_le_of_lt hu hw)]
      exact Or.inr rfl
    · have hw0 : key w ≤ 0 := le_of_not_lt hw
      by_cases h1 : key s < key w
      · rw [if_pos h1]
        by_cases h2 : key u < key w
        · rw [if_pos h2]
          exact Or.inr rfl
        · rw [if_neg h2]
          exact ih w u hw0 hu
      · rw [if_neg h1]
        by_cases h2 : key u < key w
        · rw [if_pos h2]
          exact ih s w hs hw0
        · rw [if_neg h2]
          exact ih s u hs hu

/-- The fourth matcher tier: the `(0, none)`-seeded similarity fold with the
strict 0.6 acceptance test returns exactly the first maximum of the
similarity, accepted when strictly above 0.6. -/
lemma tier4_fold_spec {α : Type} (key : α → ℚ) (l : List α) :
    ∀ B : α, firstArgmax key l = some B →
      (if mkRat 3 5 < (l.foldl (fun acc x => if acc.1 < key x then (key x, some x) else acc)
          ((0 : ℚ), (none : Option α))).1
       then (l.foldl (fun acc x => if acc.1 < key x then (key x, some x) else acc)
          ((0 : ℚ), (none : Option α))).2
       else none)
      = if mkRat 3 5 < key B then some B else none := by
  induction l with
  | nil =>
    intro B hB
    simp [firstArgmax] at hB
  | cons t ts ih =>
    intro B hB
    simp only [List.foldl_cons]
    by_cases ht : (0 : ℚ) < key t
    · rw [if_pos ht]
      rw [foldl_sim_merge key ts t]
      rw [← foldl_merge_firstArgmax key ts t] at hB
      obtain rfl := (Option.some.inj hB)
      rfl
    · rw [if_neg ht]
      have ht0 : key t ≤ 0 := le_of_not_lt ht
      cases ts with
      | nil =>
        simp only [firstArgmax] at hB
        obtain rfl := (Option.some.inj hB)
        have hno : ¬ (mkRat 3 5 < key t) := by
          intro hcon
          exact absurd (le_trans (le_of_lt hcon) ht0) (by decide)
        simp only [List.foldl_nil]
        have hzero : ¬ (mkRat 3 5 < (((0 : ℚ), (none : Option α))).1) :=
          fun hcon => (by decide : ¬ ((mkRat 3 5 : ℚ) < 0)) hcon
        rw [if_neg hzero, if_neg hno]
      | cons u us =>
        have hB0 := (foldl_merge_firstArgmax key us u).symm
        have ihr := ih (us.foldl (fun best t => if key best < key t then t else best) u) hB0
        rw [← foldl_merge_firstArgmax key (u :: us) t, List.foldl_cons] at hB
        obtain rfl := (Option.some.inj hB)
        rw [ihr]
        by_cases hu : key t < key u
        · rw [if_pos hu]
        · rw [if_neg hu]
          have hu0 : key u ≤ 0 := le_trans (le_of_not_lt hu) ht0
          rcases foldl_merge_le key us t u ht0 hu0 with ⟨hle1, hle2⟩ | heq
          · have hn1 : ¬ (mkRat 3 5
                < key (us.foldl (fun best t => if key best < key t then t else best) u)) :=
              fun hcon => absurd (le_trans (le_of_lt hcon) hle2) (by decide)
            have hn2 : ¬ (mkRat 3 5
                < key (us.foldl (fun best t => if key best < key t then t else best) t)) :=
              fun hcon => absurd (le_trans (le_of_lt hcon) hle1) (by decide)
            rw [if_neg hn1, if_neg hn2]
          · rw [heq]

/-- The candidate pairs of the third matcher tier are the map of the
overlap key over the filtered theorem list. -/
lemma pairs_eq (ns : String) (l : List String) :
    l.filterMap (fun t =>
        if 2 ≤ overlapCount ns t then some (t, overlapCount ns t) else none)
      = (l.filter (fun t => 2 ≤ overlapCount ns t)).map (fun t => (t, overlapCount ns t)) := by
  induction l with
  | nil => rfl
  | cons x xs ih =>
    by_cases hx : 2 ≤ overlapCount ns x
    · simp [List.filterMap_cons, List.filter_cons, hx, ih]
    · simp [List.filterMap_cons, List.filter_cons, hx, ih]

/-- The pair-level fold of the third matcher tier projects to the
element-level merge fold. -/
lemma tier3_cons_eq {α β : Type} [LinearOrder β] (key : α → β) (c : α) (cs : List α) :
    some (((cs.map (fun t => (t, key t))).foldl
        (fun best x => if best.2 < x.2 then x else best) (c, key c)).1)
      = some (cs.foldl (fun best t => if key best < key t then t else best) c) := by
  simp only [List.foldl_map]
  rw [foldl_pair_merge key cs c]

/-- C4 amended: the fuzzy matcher is extensionally equal to the amended
cascade contract `fuzzyMatchAmended`: normalization, then (1) exact
membership, (2) first substring containment in either direction, (3) the
earliest theorem attaining the maximal keyword overlap among those sharing
at least two underscore-delimited tokens -- ties keep GDL list order, they
are not broken alphabetically -- and (4) the earliest theorem attaining the
maximal Ratcliff-Obershelp similarity, accepted only when that maximum is
strictly greater than 0.6 (not at least 0.6); it returns none exactly when
no tier succeeds. -/
theorem c4_amended_matcher_equivalence (theoremGdl : List String) (studentName : String) :
    fuzzyMatchTheorem theoremGdl studentName = fuzzyMatchAmended theoremGdl studentName := by
  simp only [fuzzyMatchTheorem, fuzzyMatchAmended]
  by_cases h0 : studentName = ""
  · simp [h0]
  · simp only [if_neg h0]
    by_cases h1 : normalizeTheoremName studentName ∈ theoremGdl
    · simp [h1]
    · simp only [if_neg h1]
      cases hf : theoremGdl.find? (fun t =>
          containsSub t.toList (normalizeTheoremName studentName).toList
            || containsSub (normalizeTheoremName studentName).toList t.toList) with
      | some t => rfl
      | none =>
        rw [pairs_eq (normalizeTheoremName studentName) theoremGdl]
        cases hcand : List.filter (fun t => 2 ≤ overlapCount (normalizeTheoremName studentName) t)
            theoremGdl with
        | cons c cs =>
          rw [← foldl_merge_firstArgmax
            (fun t => overlapCount (normalizeTheoremName studentName) t) cs c]
          exact tier3_cons_eq (fun t => overlapCount (normalizeTheoremName studentName) t) c cs
        | nil =>
          cases hfa : firstArgmax
              (fun (t : String) => gestaltSim (normalizeTheoremName studentName).toList t.toList)
              theoremGdl with
          | some B =>
            exact tier4_fold_spec
              (fun (t : String) => gestaltSim (normalizeTheoremName studentName).toList t.toList)
              theoremGdl B hfa
          | none =>
            cases theoremGdl with
            | nil => rfl
            | cons g gs =>
              exact Option.noConfusion ((foldl_merge_firstArgmax
                (fun (t : String) => gestaltSim (normalizeTheoremName studentName).toList t.toList)
                gs g).trans hfa)

/-- C4 counterexample: two concrete runs contradict the claimed cascade.
With GDL list `["beta_side_rule", "alpha_side_rule"]` and student name
`"rule side x"`, both theorems share exactly two keywords with the name and
`alpha_side_rule` precedes `beta_side_rule` alphabetically, yet the matcher
returns `beta_side_rule` -- the tie is broken by list order, not
alphabetically.  With GDL list `["abczzz"]` and name `"abcx"`, the
Ratcliff-Obershelp similarity is exactly 0.6, yet the matcher returns none
-- the claimed at-least-0.6 acceptance does not hold, the threshold is
strict. -/
theorem c4_counterexample :
    (overlapCount (normalizeTheoremName "rule side x") "alpha_side_rule"
        = overlapCount (normalizeTheoremName "rule side x") "beta_side_rule"
      ∧ 2 ≤ overlapCount (normalizeTheoremName "rule side x") "alpha_side_rule"
      ∧ "alpha_side_rule".toList < "beta_side_rule".toList
      ∧ fuzzyMatchTheorem ["beta_side_rule", "alpha_side_rule"] "rule side x"
          = some "beta_side_rule")
    ∧ (gestaltSim (normalizeTheoremName "abcx").toList "abczzz".toList = mkRat 3 5
      ∧ fuzzyMatchTheorem ["abczzz"] "abcx" = none) := by
  decide

end FormalGeoGrader
